import Mathlib

/- Verification of the SqlHelper query compiler of the bigal object-relational
   mapping layer. The definitions below are a shallow embedding of the
   TypeScript source: dynamic JavaScript values become the `WhereValue`
   inductive, model metadata becomes `ModelSchema`, thrown errors become an
   `Except SqlError` result, the mutable parameter accumulator is threaded
   explicitly, and the recursion of `_buildWhere` is made total with a fuel
   argument (`SqlError.outOfFuel` is the artifact value for exhausted fuel). -/

/-- Dynamic JavaScript values appearing in where expressions, entities and
parameter lists. `undef` models the JavaScript value `undefined`; `obj` models
a plain object by its ordered own-property entries; `date` models a Date value
by an abstract timestamp. -/
inductive WhereValue where
  | undef : WhereValue
  | null : WhereValue
  | str : String → WhereValue
  | num : Int → WhereValue
  | bool : Bool → WhereValue
  | date : Int → WhereValue
  | arr : List WhereValue → WhereValue
  | obj : List (String × WhereValue) → WhereValue

/-- A default value declaration for a column: either a static value or a
zero-argument producer function, which the embedding models by the value it
returns (possibly `undef`). -/
inductive DefaultsTo where
  | value : WhereValue → DefaultsTo
  | producer : WhereValue → DefaultsTo

/-- Metadata for one model property (column descriptor): physical column name
(`none` means it coincides with the property name), declared type, relation
target model name, collection flag, primary key flag, required flag, default
value, and create/update timestamp flags. -/
structure Attr where
  columnName : Option String
  type : Option String
  model : Option String
  collection : Bool
  primaryKey : Bool
  required : Bool
  defaultsTo : Option DefaultsTo
  createDate : Bool
  updateDate : Bool

/-- An attribute with every field unset; concrete schemas are written as record
updates of this value. -/
def emptyAttr : Attr :=
  ⟨none, none, none, false, false, false, none, false, false⟩

/-- Model metadata: global id (entity name), physical table name, and the
ordered property-name-to-column map. -/
structure ModelSchema where
  globalId : String
  tableName : String
  attributes : List (String × Attr)

/-- A record (entity) is an ordered list of own properties. -/
abbrev EntityRec := List (String × WhereValue)

/-- Failure modes of the compiler. Each constructor other than `outOfFuel`
corresponds to a distinct `throw new Error(...)` site in the source;
`typeError` models a TypeError raised by the JavaScript runtime itself
(toLowerCase on a non-string, member access on undefined, iterating a
non-iterable). -/
inductive SqlError where
  | outOfFuel
  | undefinedValue (propertyName globalId : String)
  | propertyNameNotDefined
  | unknownProperty (propertyName globalId : String)
  | unknownRelatedModel (modelName : String)
  | missingPrimaryKeyColumn (relatedModelName modelName : String)
  | missingRequiredField (modelName propertyName : String)
  | undefinedPrimaryKeyValue (propertyName modelName : String)
  | invalidConstraint (op propertyName globalId : String)
  | unsupportedOperator (op propertyName globalId : String)
  | typeError
deriving DecidableEq

/-- Looks up `schema.attributes[propertyName]`. -/
def lookupAttr (schema : ModelSchema) (propertyName : String) : Option Attr :=
  match schema.attributes.find? (fun pa => pa.1 = propertyName) with
  | some pa => some pa.2
  | none => none

/-- Looks up a model schema in the lowercase-keyed registry. -/
def lookupSchema (msbgi : List (String × ModelSchema)) (key : String) : Option ModelSchema :=
  match msbgi.find? (fun e => e.1 = key) with
  | some e => some e.2
  | none => none

/-- JavaScript truthiness of an optional string: `undefined` and the empty
string are falsy. -/
def truthyStr : Option String → Bool
  | some s => !s.isEmpty
  | none => false

/-- lodash `_.isObject`: true for plain objects, arrays and dates, false for
primitives, null and undefined. -/
def isObjectLodash : WhereValue → Bool
  | .obj _ => true
  | .arr _ => true
  | .date _ => true
  | _ => false

/-- Recognises the JavaScript undefined value. -/
def isUndef : WhereValue → Bool
  | .undef => true
  | _ => false

/-- Reads a property of a JavaScript object value, yielding `undef` when the
property is absent or the value is not a plain object. -/
def getProp (v : WhereValue) (key : String) : WhereValue :=
  match v with
  | .obj entries =>
    match entries.find? (fun e => e.1 = key) with
    | some e => e.2
    | none => .undef
  | _ => (.undef)

/-- SqlHelper._isComparer: the closed set of reserved comparator tokens. -/
def _isComparer (value : String) : Bool :=
  match value with
  | "!" => true
  | "not" => true
  | "or" => true
  | "and" => true
  | "contains" => true
  | "startsWith" => true
  | "endsWith" => true
  | "like" => true
  | "<" => true
  | "<=" => true
  | ">" => true
  | ">=" => true
  | _ => false

/-- SqlHelper.getPrimaryKeyPropertyName: the first attribute flagged as primary
key, defaulting to "id". -/
def getPrimaryKeyPropertyName (schema : ModelSchema) : String :=
  match schema.attributes.find? (fun pa => pa.2.primaryKey) with
  | some pa => pa.1
  | none => "id"

/-- ModelMetadata.primaryKeyColumn: the first column flagged as primary key, if
any. -/
def primaryKeyColumn (schema : ModelSchema) : Option (String × Attr) :=
  schema.attributes.find? (fun pa => pa.2.primaryKey)

/-- SqlHelper._getColumnName: physical column name of a property; fails when
the property name is falsy or the property is not declared on the model. The
`columnName || propertyName` fallback treats an empty column name as unset. -/
def _getColumnName (schema : ModelSchema) (propertyName : Option String) :
    Except SqlError String :=
  if truthyStr propertyName then
    match lookupAttr schema (propertyName.getD "") with
    | none => .error (.unknownProperty (propertyName.getD "") schema.globalId)
    | some a =>
      match a.columnName with
      | some c => if c.isEmpty then .ok (propertyName.getD "") else .ok c
      | none => .ok (propertyName.getD "")
  else .error .propertyNameNotDefined

/-- JavaScript Array.prototype.join. -/
def joinSep (sep : String) : List String → String
  | [] => ""
  | [s] => s
  | s :: rest => s ++ sep ++ joinSep sep rest

/-- Decimal digit character (code 48 + d). -/
def digitChar48 (d : Nat) : Char := Char.ofNat (48 + d)

/-- Decimal digit expansion, most significant digit first, computed with a fuel
argument so that the definition is structurally recursive. -/
def decDigitsAux : Nat → Nat → List Char
  | 0, n => [digitChar48 (n % 10)]
  | fuel+1, n =>
    if n < 10 then [digitChar48 n]
    else decDigitsAux fuel (n / 10) ++ [digitChar48 (n % 10)]

/-- Decimal digit expansion of a natural number (the fuel `n` always
suffices). -/
def decDigits (n : Nat) : List Char := decDigitsAux n n

/-- Decimal rendering of a natural number; models the JavaScript template
interpolation of `params.length` into placeholder text. -/
def decRepr (n : Nat) : String := String.mk (decDigits n)

/-- ASCII lowercasing by characters (structurally recursive stand-in for
toLowerCase). -/
def toLowerStr (s : String) : String := String.mk (s.data.map Char.toLower)

/-- The lowercased declared type of an optional attribute, with the empty
string for a missing attribute or missing/empty type. -/
def typeLowered (a? : Option Attr) : String :=
  match a? with
  | some a =>
    match a.type with
    | some t => if t.isEmpty then "" else toLowerStr t
    | none => ""
  | none => ""

/-- The set of array column types recognised by the where compiler. -/
def isArrayColumnType (t : String) : Bool :=
  t = "array" || t = "string[]" || t = "integer[]" || t = "float[]" || t = "boolean[]"

/-- The SQL array cast token chosen from the (lowercased) column type. -/
def castTypeFor (propertyType : String) : String :=
  match propertyType with
  | "int" => "::INTEGER[]"
  | "integer" => "::INTEGER[]"
  | "integer[]" => "::INTEGER[]"
  | "float" => "::NUMERIC[]"
  | "float[]" => "::NUMERIC[]"
  | "boolean" => "::BOOLEAN[]"
  | "boolean[]" => "::BOOLEAN[]"
  | _ => "::TEXT[]"

/-- Lowercases every element of a pattern array, failing with a TypeError the
way `val.toLowerCase()` does on a non-string. -/
def lowerAll : List WhereValue → Except SqlError (List String)
  | [] => .ok []
  | .str s :: rest =>
    match lowerAll rest with
    | .ok others => .ok (toLowerStr s :: others)
    | .error e => .error e
  | _ :: _ => .error .typeError

/-- Validates that every array element is a string and applies the wildcard
transform of a contains/startsWith/endsWith comparator. -/
def mapPattern (op : String) (f : String → String) (schema : ModelSchema)
    (propertyName : Option String) : List WhereValue → Except SqlError (List String)
  | [] => .ok []
  | .str s :: rest =>
    match mapPattern op f schema propertyName rest with
    | .ok others => .ok (f s :: others)
    | .error e => .error e
  | _ :: _ => .error (.invalidConstraint op (propertyName.getD "") schema.globalId)

/-- The scalar tail of SqlHelper._buildLikeOperatorStatement, reached directly
for non-array values and after the single-element-array unwrap: handles string
values (case-insensitive ILIKE, the unnest form for array columns, and the
exact comparison special case for the empty string) and rejects everything
else. -/
def likeScalar (schema : ModelSchema) (propertyName : Option String) (isNegated : Bool)
    (value : WhereValue) (params : List WhereValue) :
    Except SqlError (String × List WhereValue) :=
  match value with
  | .str s =>
    match _getColumnName schema propertyName with
    | .error e => .error e
    | .ok columnName =>
      if s.isEmpty then
        .ok ("\"" ++ columnName ++ "\" " ++ (if isNegated then "!=" else "=") ++ " \x27\x27",
          params)
      else
        let params' := params ++ [.str s]
        let propertyType := typeLowered (lookupAttr schema (propertyName.getD ""))
        if propertyType = "array" || propertyType = "string[]" then
          .ok ((if isNegated then "NOT " else "") ++ "EXISTS(SELECT 1 FROM (SELECT unnest(\""
            ++ columnName ++ "\") AS \"unnested_" ++ columnName ++ "\") __unnested WHERE \"unnested_"
            ++ columnName ++ "\" ILIKE $" ++ decRepr params'.length ++ ")", params')
        else
          .ok ("\"" ++ columnName ++ "\"" ++ (if isNegated then " NOT" else "") ++ " ILIKE $"
            ++ decRepr params'.length, params')
  | _ => .error (.invalidConstraint "like" (propertyName.getD "") schema.globalId)

/-- SqlHelper._buildLikeOperatorStatement: case-insensitive pattern match. An
empty pattern array yields a tautology, a multi-element array binds the
lowercased values as one array parameter, and a single-element array is
unwrapped to its element. -/
def _buildLikeOperatorStatement (schema : ModelSchema) (propertyName : Option String)
    (isNegated : Bool) (value : WhereValue) (params : List WhereValue) :
    Except SqlError (String × List WhereValue) :=
  match value with
  | .arr l =>
    if l.isEmpty then
      .ok (if isNegated then "1=1" else "1<>1", params)
    else if l.length > 1 then
      match lowerAll l with
      | .error e => .error e
      | .ok lowerValues =>
        match _getColumnName schema propertyName with
        | .error e => .error e
        | .ok columnName =>
          let params' := params ++ [.arr (lowerValues.map .str)]
          let propertyType := typeLowered (lookupAttr schema (propertyName.getD ""))
          if propertyType = "array" || propertyType = "string[]" then
            .ok ("EXISTS(SELECT 1 FROM (SELECT unnest(\"" ++ columnName ++ "\") AS \"unnested_"
              ++ columnName ++ "\") __unnested WHERE lower(\"unnested_" ++ columnName ++ "\")"
              ++ (if isNegated then "<>ALL" else "=ANY") ++ "($" ++ decRepr params'.length
              ++ "::TEXT[]))", params')
          else
            .ok ("lower(\"" ++ columnName ++ "\")" ++ (if isNegated then "<>ALL" else "=ANY")
              ++ "($" ++ decRepr params'.length ++ "::TEXT[])", params')
    else
      likeScalar schema propertyName isNegated (l.headD .undef) params
  | v => likeScalar schema propertyName isNegated v params

/-- SqlHelper._buildComparisonOperatorStatement: null becomes IS [NOT] NULL
with no parameter; otherwise one parameter is bound and the comparator (or
default equality) is emitted, with negation flipping the operator, ordering
comparators rejected on array/json columns, and scalar-against-array-column
equality emitted in the reversed `$n =ANY("column")` form. -/
def _buildComparisonOperatorStatement (schema : ModelSchema) (propertyName : Option String)
    (comparer : Option String) (isNegated : Bool) (value : WhereValue)
    (params : List WhereValue) : Except SqlError (String × List WhereValue) :=
  match _getColumnName schema propertyName with
  | .error e => .error e
  | .ok columnName =>
    match value with
    | .null =>
      .ok ("\"" ++ columnName ++ "\" " ++ (if isNegated then "IS NOT" else "IS") ++ " NULL",
        params)
    | v =>
      let params' := params ++ [v]
      let propertyType := (lookupAttr schema (propertyName.getD "")).bind Attr.type
      let supportsLtGt := propertyType ≠ some "array" ∧ propertyType ≠ some "json"
      match comparer with
      | some "<" =>
        if supportsLtGt then
          .ok ("\"" ++ columnName ++ "\"" ++ (if isNegated then ">=" else "<") ++ "$"
            ++ decRepr params'.length, params')
        else .error (.unsupportedOperator "<" (propertyName.getD "") schema.globalId)
      | some "<=" =>
        if supportsLtGt then
          .ok ("\"" ++ columnName ++ "\"" ++ (if isNegated then ">" else "<=") ++ "$"
            ++ decRepr params'.length, params')
        else .error (.unsupportedOperator "<=" (propertyName.getD "") schema.globalId)
      | some ">" =>
        if supportsLtGt then
          .ok ("\"" ++ columnName ++ "\"" ++ (if isNegated then "<=" else ">") ++ "$"
            ++ decRepr params'.length, params')
        else .error (.unsupportedOperator ">" (propertyName.getD "") schema.globalId)
      | some ">=" =>
        if supportsLtGt then
          .ok ("\"" ++ columnName ++ "\"" ++ (if isNegated then "<" else ">=") ++ "$"
            ++ decRepr params'.length, params')
        else .error (.unsupportedOperator ">=" (propertyName.getD "") schema.globalId)
      | _ =>
        if propertyType = some "array" then
          .ok ("$" ++ decRepr params'.length ++ (if isNegated then "<>ALL(" else "=ANY(")
            ++ "\"" ++ columnName ++ "\")", params')
        else
          .ok ("\"" ++ columnName ++ "\"" ++ (if isNegated then "<>" else "=") ++ "$"
            ++ decRepr params'.length, params')

/-- JavaScript for..of iteration over the operand of `or`: arrays iterate their
elements, strings iterate their characters, anything else raises a TypeError. -/
def iterableElems : WhereValue → Option (List WhereValue)
  | .arr l => some l
  | .str s => some (s.data.map (fun c => .str (String.mk [c])))
  | _ => none

/-- The hydrated-relation dereference step of SqlHelper._buildWhere's default
branch: when the property is relation-typed and the value is an object, returns
`some pk` (the populated primary key value to recurse on) or `none` to fall
through; fails when the related model is missing from the registry. -/
def relationDereference (msbgi : List (String × ModelSchema)) (schema : ModelSchema)
    (propertyName : Option String) (value : WhereValue) :
    Except SqlError (Option WhereValue) :=
  if truthyStr propertyName then
    match lookupAttr schema (propertyName.getD "") with
    | some modelAttribute =>
      if !(modelAttribute.model.getD "").isEmpty && isObjectLodash value then
        match lookupSchema msbgi (toLowerStr (modelAttribute.model.getD "")) with
        | none => .error (.unknownRelatedModel (modelAttribute.model.getD ""))
        | some relationSchema =>
          match getProp value (getPrimaryKeyPropertyName relationSchema) with
          | .undef => .ok none
          | pkValue => .ok (some pkValue)
      else .ok none
    | none => .ok none
  else .ok none

/-- The attribute used to type an array value: the attribute of the property
name when that is truthy, else the attribute of the comparator key (the
source's `typeAttributeFromPropertyName || typeAttributeFromComparer`
pattern, evaluated in both the empty-array and array-parameter branches). -/
def attrFromPropertyOrComparer (schema : ModelSchema) (propertyName comparer : Option String) :
    Option Attr :=
  match (if truthyStr propertyName then lookupAttr schema (propertyName.getD "") else none) with
  | some a => some a
  | none => if truthyStr comparer then lookupAttr schema (comparer.getD "") else none

mutual
/-- SqlHelper._buildWhere: recursive dispatch on `comparer || propertyName`
over the where tree, threading the negation flag and the growing parameter
list. The default branch of the source's switch statement is split into the
helper `buildWhereDefault` (and its array part into `buildWhereArray`) purely
to keep each definition small; together they are the single `_buildWhere`
method of the source. -/
def _buildWhere : Nat → List (String × ModelSchema) → ModelSchema → Option String →
    Option String → Bool → WhereValue → List WhereValue →
    Except SqlError (String × List WhereValue)
  | 0, _, _, _, _, _, _, _ => .error .outOfFuel
  | fuel+1, msbgi, schema, propertyName, comparer, isNegated, value, params =>
    let key : String :=
      match comparer with
      | some c => c
      | none => propertyName.getD ""
    if key = "!" ∨ key = "not" then
      _buildWhere fuel msbgi schema propertyName none true value params
    else if key = "or" then
      match iterableElems value with
      | none => .error .typeError
      | some elems =>
        match buildOrClauses fuel msbgi schema isNegated elems params with
        | .error e => .error e
        | .ok (orClauses, params') =>
          if orClauses.length = 1 then .ok (orClauses.headD "", params')
          else if isNegated then .ok (joinSep " AND " orClauses, params')
          else .ok ("(" ++ joinSep " OR " orClauses ++ ")", params')
    else if key = "contains" then
      match value with
      | .arr l =>
        match mapPattern "contains" (fun s => "%" ++ s ++ "%") schema propertyName l with
        | .error e => .error e
        | .ok values =>
          _buildWhere fuel msbgi schema propertyName (some "like") isNegated
            (.arr (values.map .str)) params
      | .str s =>
        _buildWhere fuel msbgi schema propertyName (some "like") isNegated
          (.str ("%" ++ s ++ "%")) params
      | _ => .error (.invalidConstraint "contains" (propertyName.getD "") schema.globalId)
    else if key = "startsWith" then
      match value with
      | .arr l =>
        match mapPattern "startsWith" (fun s => s ++ "%") schema propertyName l with
        | .error e => .error e
        | .ok values =>
          _buildWhere fuel msbgi schema propertyName (some "like") isNegated
            (.arr (values.map .str)) params
      | .str s =>
        _buildWhere fuel msbgi schema propertyName (some "like") isNegated
          (.str (s ++ "%")) params
      | _ => .error (.invalidConstraint "startsWith" (propertyName.getD "") schema.globalId)
    else if key = "endsWith" then
      match value with
      | .arr l =>
        match mapPattern "endsWith" (fun s => "%" ++ s) schema propertyName l with
        | .error e => .error e
        | .ok values =>
          _buildWhere fuel msbgi schema propertyName (some "like") isNegated
            (.arr (values.map .str)) params
      | .str s =>
        _buildWhere fuel msbgi schema propertyName (some "like") isNegated
          (.str ("%" ++ s)) params
      | _ => .error (.invalidConstraint "endsWith" (propertyName.getD "") schema.globalId)
    else if key = "like" then
      _buildLikeOperatorStatement schema propertyName isNegated value params
    else
      buildWhereDefault fuel msbgi schema propertyName comparer isNegated value params
  termination_by structural fuel => fuel

/-- The default branch of SqlHelper._buildWhere's switch: undefined check,
hydrated-relation dereference, then the array / nested-object / leaf
comparison cases. -/
def buildWhereDefault : Nat → List (String × ModelSchema) → ModelSchema → Option String →
    Option String → Bool → WhereValue → List WhereValue →
    Except SqlError (String × List WhereValue)
  | 0, _, _, _, _, _, _, _ => .error .outOfFuel
  | fuel+1, msbgi, schema, propertyName, comparer, isNegated, value, params =>
    match value with
    | .undef => .error (.undefinedValue (propertyName.getD "") schema.globalId)
    | v =>
      match relationDereference msbgi schema propertyName v with
      | .error e => .error e
      | .ok (some pkValue) =>
        _buildWhere fuel msbgi schema propertyName comparer isNegated pkValue params
      | .ok none =>
        match v with
        | .arr l =>
          if l.isEmpty then
            if isArrayColumnType (typeLowered (attrFromPropertyOrComparer schema propertyName comparer)) then
              match _getColumnName schema propertyName with
              | .error e => .error e
              | .ok arrayColumnName =>
                .ok ("\"" ++ arrayColumnName ++ "\"" ++ (if isNegated then "<>" else "=")
                  ++ "\x27\x7b\x7d\x27", params)
            else if isNegated then .ok ("1=1", params)
            else .ok ("1<>1", params)
          else
            buildWhereArray fuel msbgi schema propertyName comparer isNegated l params
        | .obj entries =>
          match buildWhereEntries fuel msbgi schema propertyName isNegated entries params with
          | .error e => .error e
          | .ok (andValues, params') => .ok (joinSep " AND " andValues, params')
        | _ =>
          _buildComparisonOperatorStatement schema propertyName comparer isNegated v params
  termination_by structural fuel => fuel

/-- The nonempty-array case of SqlHelper._buildWhere's default branch: null
elements split out as IS [NOT] NULL terms, remaining values compiled per
element for array columns or bound as one cast array parameter otherwise, all
joined like an or. -/
def buildWhereArray : Nat → List (String × ModelSchema) → ModelSchema → Option String →
    Option String → Bool → List WhereValue → List WhereValue →
    Except SqlError (String × List WhereValue)
  | 0, _, _, _, _, _, _, _ => .error .outOfFuel
  | fuel+1, msbgi, schema, propertyName, comparer, isNegated, l, params =>
    match buildNullOrValues fuel msbgi schema propertyName isNegated l params with
    | .error e => .error e
    | .ok (nullConstraints, valueWithoutNull, params1) =>
      let step2 : Except SqlError (List String × List WhereValue) :=
        match valueWithoutNull with
        | [] => .ok (nullConstraints, params1)
        | [single] =>
          match _buildWhere fuel msbgi schema propertyName none isNegated single params1 with
          | .error e => .error e
          | .ok (c, params2) => .ok (nullConstraints ++ [c], params2)
        | vals =>
          match _getColumnName schema propertyName with
          | .error e => .error e
          | .ok columnName =>
            let propertyType := typeLowered (attrFromPropertyOrComparer schema propertyName comparer)
            if isArrayColumnType propertyType then
              match buildValueConstraints fuel msbgi schema propertyName isNegated vals params1 with
              | .error e => .error e
              | .ok (cs, params2) => .ok (nullConstraints ++ cs, params2)
            else
              let params2 := params1 ++ [.arr vals]
              .ok (nullConstraints ++ ["\"" ++ columnName ++ "\""
                ++ (if isNegated then "<>ALL" else "=ANY") ++ "($"
                ++ decRepr params2.length ++ castTypeFor propertyType ++ ")"], params2)
      match step2 with
      | .error e => .error e
      | .ok (orConstraints, paramsF) =>
        if orConstraints.length = 1 then .ok (orConstraints.headD "", paramsF)
        else if isNegated then .ok (joinSep " AND " orConstraints, paramsF)
        else .ok ("(" ++ joinSep " OR " orConstraints ++ ")", paramsF)
  termination_by structural fuel => fuel

/-- The loop of SqlHelper._buildOrOperatorStatement: each constraint compiles
independently (without property name or comparator context) and is wrapped in
parentheses. -/
def buildOrClauses : Nat → List (String × ModelSchema) → ModelSchema → Bool →
    List WhereValue → List WhereValue → Except SqlError (List String × List WhereValue)
  | 0, _, _, _, _, _ => .error .outOfFuel
  | _+1, _, _, _, [], params => .ok ([], params)
  | fuel+1, msbgi, schema, isNegated, constraint :: rest, params =>
    match _buildWhere fuel msbgi schema none none isNegated constraint params with
    | .error e => .error e
    | .ok (orClause, params') =>
      match buildOrClauses fuel msbgi schema isNegated rest params' with
      | .error e => .error e
      | .ok (clauses, params'') => .ok (("(" ++ orClause ++ ")") :: clauses, params'')
  termination_by structural fuel => fuel

/-- The null-splitting loop of _buildWhere's array branch: null elements
compile immediately to IS [NOT] NULL constraints, other elements are collected
in order. Returns (null constraints, non-null values, params). -/
def buildNullOrValues : Nat → List (String × ModelSchema) → ModelSchema → Option String →
    Bool → List WhereValue → List WhereValue →
    Except SqlError (List String × List WhereValue × List WhereValue)
  | 0, _, _, _, _, _, _ => .error .outOfFuel
  | _+1, _, _, _, _, [], params => .ok ([], [], params)
  | fuel+1, msbgi, schema, propertyName, isNegated, item :: rest, params =>
    match item with
    | .null =>
      match _buildWhere fuel msbgi schema propertyName none isNegated .null params with
      | .error e => .error e
      | .ok (c, params') =>
        match buildNullOrValues fuel msbgi schema propertyName isNegated rest params' with
        | .error e => .error e
        | .ok (cs, vals, params'') => .ok (c :: cs, vals, params'')
    | v =>
      match buildNullOrValues fuel msbgi schema propertyName isNegated rest params with
      | .error e => .error e
      | .ok (cs, vals, params') => .ok (cs, v :: vals, params')
  termination_by structural fuel => fuel

/-- The per-element loop of _buildWhere's array branch for array-typed columns:
each non-null element compiles separately. -/
def buildValueConstraints : Nat → List (String × ModelSchema) → ModelSchema → Option String →
    Bool → List WhereValue → List WhereValue →
    Except SqlError (List String × List WhereValue)
  | 0, _, _, _, _, _, _ => .error .outOfFuel
  | _+1, _, _, _, _, [], params => .ok ([], params)
  | fuel+1, msbgi, schema, propertyName, isNegated, val :: rest, params =>
    match _buildWhere fuel msbgi schema propertyName none isNegated val params with
    | .error e => .error e
    | .ok (c, params') =>
      match buildValueConstraints fuel msbgi schema propertyName isNegated rest params' with
      | .error e => .error e
      | .ok (cs, params'') => .ok (c :: cs, params'')
  termination_by structural fuel => fuel

/-- The nested-object loop of _buildWhere: each key is classified with
_isComparer as comparator or property name, the property name persisting
across subsequent entries; the compiled AND terms are returned in order. -/
def buildWhereEntries : Nat → List (String × ModelSchema) → ModelSchema → Option String →
    Bool → List (String × WhereValue) → List WhereValue →
    Except SqlError (List String × List WhereValue)
  | 0, _, _, _, _, _, _ => .error .outOfFuel
  | _+1, _, _, _, _, [], params => .ok ([], params)
  | fuel+1, msbgi, schema, propertyName, isNegated, (key, w) :: rest, params =>
    let subQueryComparer : Option String := if _isComparer key then some key else none
    let propertyName' : Option String := if _isComparer key then propertyName else some key
    match _buildWhere fuel msbgi schema propertyName' subQueryComparer isNegated w params with
    | .error e => .error e
    | .ok (s, params') =>
      match buildWhereEntries fuel msbgi schema propertyName' isNegated rest params' with
      | .error e => .error e
      | .ok (ss, params'') => .ok (s :: ss, params'')
  termination_by structural fuel => fuel
end

/-- SqlHelper._buildWhereStatement: compiles a where object with an implicit
top-level `and` comparator and prefixes the result with WHERE; yields the empty
string when there is no where object or the compiled fragment is empty (so that
callers, testing truthiness, emit no WHERE clause). -/
def _buildWhereStatement (fuel : Nat) (msbgi : List (String × ModelSchema))
    (schema : ModelSchema) (whereQuery : Option WhereValue) (params : List WhereValue) :
    Except SqlError (String × List WhereValue) :=
  match whereQuery with
  | some w =>
    if isObjectLodash w then
      match _buildWhere fuel msbgi schema none (some "and") false w params with
      | .error e => .error e
      | .ok (s, params') => .ok (if s.isEmpty then "" else "WHERE " ++ s, params')
    else .ok ("", params)
  | none => .ok ("", params)

/-- The select-list computation of SqlHelper._getColumnsToSelect: an explicit
select list lacking the primary key property gets it appended (an in-place
mutation of the caller's array); an omitted select becomes the list of all
non-collection property names. -/
def effectiveSelect (model : ModelSchema) (select : Option (List String)) : List String :=
  match select with
  | some sel =>
    match primaryKeyColumn model with
    | some pk => if sel.contains pk.1 then sel else sel ++ [pk.1]
    | none => sel
  | none => (model.attributes.filter (fun pa => !pa.2.collection)).map Prod.fst

/-- The projection piece emitted for one property: aliased with AS exactly when
the physical column name differs from the property name; reading a property
missing from columnsByPropertyName is a TypeError. -/
def selectPiece (model : ModelSchema) (propertyName : String) : Except SqlError String :=
  match lookupAttr model propertyName with
  | none => .error .typeError
  | some column =>
    let name := column.columnName.getD propertyName
    if name ≠ propertyName then
      .ok ("\"" ++ name ++ "\" AS \"" ++ propertyName ++ "\"")
    else .ok ("\"" ++ propertyName ++ "\"")

/-- The projection pieces for a select list, in order. -/
def selectPieces (model : ModelSchema) : List String → Except SqlError (List String)
  | [] => .ok []
  | p :: rest =>
    match selectPiece model p with
    | .error e => .error e
    | .ok piece =>
      match selectPieces model rest with
      | .error e => .error e
      | .ok others => .ok (piece :: others)

/-- SqlHelper._getColumnsToSelect: the comma-joined projection string together
with the caller-visible final value of the select argument (the source mutates
an explicit select array in place; replacing an omitted select by a fresh local
list is not visible to the caller). -/
def _getColumnsToSelect (model : ModelSchema) (select : Option (List String)) :
    Except SqlError (String × Option (List String)) :=
  let sel := effectiveSelect model select
  match selectPieces model sel with
  | .error e => .error e
  | .ok pieces => .ok (joinSep "," pieces, select.map (fun _ => sel))

/-- SqlHelper.getDeleteQueryAndParams. -/
def getDeleteQueryAndParams (fuel : Nat) (msbgi : List (String × ModelSchema))
    (schema : ModelSchema) (whereQuery : Option WhereValue) (returnRecords : Bool)
    (returnSelect : Option (List String)) : Except SqlError (String × List WhereValue) :=
  match _buildWhereStatement fuel msbgi schema whereQuery [] with
  | .error e => .error e
  | .ok (whereStatement, params) =>
    let base := "DELETE FROM \"" ++ schema.tableName ++ "\""
    let query := if whereStatement.isEmpty then base else base ++ " " ++ whereStatement
    if returnRecords then
      match _getColumnsToSelect schema returnSelect with
      | .error e => .error e
      | .ok (cols, _) => .ok (query ++ " RETURNING " ++ cols, params)
    else .ok (query, params)

/-- Reads an entity property; absent properties read as `undef`. -/
def getEntityProp (e : EntityRec) (key : String) : WhereValue :=
  match e.find? (fun kv => kv.1 = key) with
  | some kv => kv.2
  | none => (.undef)

/-- JavaScript property assignment on a record: replaces the first existing
entry or appends a new one. -/
def setEntityProp (e : EntityRec) (key : String) (v : WhereValue) : EntityRec :=
  match e with
  | [] => [(key, v)]
  | (k, w) :: rest => if k = key then (key, v) :: rest else (k, w) :: setEntityProp rest key v

/-- The per-column default computed by getInsertQueryAndParams: a producer
function is invoked (modelled by its returned value), a static value is used
directly, and create/update timestamp columns default to the current time,
taken here as the explicit argument `now` (modelling `new Date()`). Yields
`undef` when the column has no applicable default. -/
def defaultValueFor (now : Int) (column : Attr) : WhereValue :=
  match column.defaultsTo with
  | some (.producer v) => v
  | some (.value v) => v
  | none =>
    if column.createDate then .date now
    else if column.updateDate then .date now
    else (.undef)

/-- The inner entity loop of getInsertQueryAndParams for one column: entities
missing the property receive the default when one exists, then the required
constraint is checked; returns the updated entities and whether any entity has
a value for this column. -/
def applyColumnDefaults (modelName propertyName : String) (required : Bool)
    (defaultValue : WhereValue) : List EntityRec → Except SqlError (List EntityRec × Bool)
  | [] => .ok ([], false)
  | e :: rest =>
    let e' :=
      if !isUndef defaultValue && isUndef (getEntityProp e propertyName)
      then setEntityProp e propertyName defaultValue else e
    if isUndef (getEntityProp e' propertyName) then
      if required then .error (.missingRequiredField modelName propertyName)
      else
        match applyColumnDefaults modelName propertyName required defaultValue rest with
        | .error err => .error err
        | .ok (es, incl) => .ok (e' :: es, incl)
    else
      match applyColumnDefaults modelName propertyName required defaultValue rest with
      | .error err => .error err
      | .ok (es, _) => .ok (e' :: es, true)

/-- The column loop of getInsertQueryAndParams that runs before any SQL text is
produced: collection columns are skipped, defaults are applied, required
columns are validated, and the columns with at least one populated row are
selected for insertion. -/
def insertDefaultsPhase (now : Int) (modelName : String) :
    List (String × Attr) → List EntityRec →
    Except SqlError (List EntityRec × List (String × Attr))
  | [], entities => .ok (entities, [])
  | (propertyName, column) :: rest, entities =>
    if column.collection then insertDefaultsPhase now modelName rest entities
    else
      match applyColumnDefaults modelName propertyName column.required
        (defaultValueFor now column) entities with
      | .error e => .error e
      | .ok (entities', includePropertyName) =>
        match insertDefaultsPhase now modelName rest entities' with
        | .error e => .error e
        | .ok (entitiesF, cols) =>
          .ok (entitiesF, if includePropertyName then (propertyName, column) :: cols else cols)

/-- A model of JSON.stringify sufficient for binding array values to json
columns, made structurally recursive with a fuel argument (dates serialize to
an abstract string). -/
def jsonStringify : Nat → WhereValue → String
  | 0, _ => ""
  | _+1, .undef => "null"
  | _+1, .null => "null"
  | _+1, .str s => "\"" ++ s ++ "\""
  | _+1, .num n => toString n
  | _+1, .bool b => if b then "true" else "false"
  | _+1, .date d => "\"" ++ toString d ++ "\""
  | fuel+1, .arr l => "[" ++ joinSep "," (l.map (jsonStringify fuel)) ++ "]"
  | fuel+1, .obj entries =>
    "\x7b" ++ joinSep ","
      (entries.map (fun e => "\"" ++ e.1 ++ "\":" ++ jsonStringify fuel e.2)) ++ "\x7d"

/-- One cell of the VALUES matrix of getInsertQueryAndParams: nil values become
the NULL literal, relation objects are dereferenced to their primary key value,
arrays bound to json columns are serialized with a ::jsonb cast, and all other
values are bound as the next positional parameter. -/
def insertCellValue (fuel : Nat) (msbgi : List (String × ModelSchema))
    (modelName propertyName : String)
    (column : Attr) (entity : EntityRec) (params : List WhereValue) :
    Except SqlError (String × List WhereValue) :=
  match getEntityProp entity propertyName with
  | .undef => .ok ("NULL", params)
  | .null => .ok ("NULL", params)
  | v =>
    let isJsonArray : Bool :=
      (match column.type with | some t => decide (t = "json") | none => false)
        && (match v with | .arr _ => true | _ => false)
    let pushed : Except SqlError (List WhereValue) :=
      if (column.model.getD "") ≠ "" ∧ isObjectLodash v = true then
        match lookupSchema msbgi (toLowerStr (column.model.getD "")) with
        | none => .error (.unknownRelatedModel (column.model.getD ""))
        | some relationSchema =>
          match primaryKeyColumn relationSchema with
          | none => .error (.missingPrimaryKeyColumn (column.model.getD "") modelName)
          | some pk =>
            match getProp v pk.1 with
            | .undef => .error (.undefinedPrimaryKeyValue propertyName modelName)
            | .null => .error (.undefinedPrimaryKeyValue propertyName modelName)
            | pkValue => .ok (params ++ [pkValue])
      else if isJsonArray then .ok (params ++ [.str (jsonStringify fuel v)])
      else .ok (params ++ [v])
    match pushed with
    | .error e => .error e
    | .ok params' =>
      .ok ("$" ++ decRepr params'.length ++ (if isJsonArray then "::jsonb" else ""), params')

/-- The value tokens of one inserted column, one per entity in entity order. -/
def insertColumnCells (fuel : Nat) (msbgi : List (String × ModelSchema))
    (modelName propertyName : String)
    (column : Attr) : List EntityRec → List WhereValue →
    Except SqlError (List String × List WhereValue)
  | [], params => .ok ([], params)
  | e :: rest, params =>
    match insertCellValue fuel msbgi modelName propertyName column e params with
    | .error err => .error err
    | .ok (tok, params') =>
      match insertColumnCells fuel msbgi modelName propertyName column rest params' with
      | .error err => .error err
      | .ok (toks, params'') => .ok (tok :: toks, params'')

/-- The column-major loop of getInsertQueryAndParams: for each inserted column,
its quoted physical name and its per-entity value tokens; parameter numbering
is column-major because each column binds all of its rows before the next
column starts. -/
def insertColumnsLoop (fuel : Nat) (msbgi : List (String × ModelSchema)) (modelName : String) :
    List (String × Attr) → List EntityRec → List WhereValue →
    Except SqlError (List String × List (List String) × List WhereValue)
  | [], _, params => .ok ([], [], params)
  | (p, c) :: rest, entities, params =>
    match insertColumnCells fuel msbgi modelName p c entities params with
    | .error e => .error e
    | .ok (toks, params') =>
      match insertColumnsLoop fuel msbgi modelName rest entities params' with
      | .error e => .error e
      | .ok (names, cols, params'') =>
        .ok (("\"" ++ (c.columnName.getD p) ++ "\"") :: names, toks :: cols, params'')

/-- The per-entity VALUES rows assembled from the per-column token lists (the
source pushes each column's token onto every entity's collection as it
walks the columns). -/
def buildValueCollections (cols : List (List String)) (numEntities : Nat) : List (List String) :=
  (List.range numEntities).map (fun i => cols.map (fun toks => toks.getD i ""))

/-- SqlHelper.getInsertQueryAndParams. `values` is the normalized entity list
(a single-record insert is the one-element list); `now` models `new Date()`;
`fuel` only bounds the depth of JSON serialization for json-typed columns. -/
def getInsertQueryAndParams (fuel : Nat) (now : Int) (msbgi : List (String × ModelSchema))
    (model : ModelSchema) (values : List EntityRec) (returnRecords : Bool)
    (returnSelect : Option (List String)) : Except SqlError (String × List WhereValue) :=
  match insertDefaultsPhase now model.globalId model.attributes values with
  | .error e => .error e
  | .ok (entitiesToInsert, columnsToInsert) =>
    match insertColumnsLoop fuel msbgi model.globalId columnsToInsert entitiesToInsert [] with
    | .error e => .error e
    | .ok (names, colTokens, params) =>
      let valueCollections := buildValueCollections colTokens entitiesToInsert.length
      let query := "INSERT INTO \"" ++ model.tableName ++ "\" (" ++ joinSep "," names
        ++ ") VALUES "
        ++ joinSep "," (valueCollections.map (fun vc => "(" ++ joinSep "," vc ++ ")"))
      if returnRecords then
        match _getColumnsToSelect model returnSelect with
        | .error e => .error e
        | .ok (cols, _) => .ok (query ++ " RETURNING " ++ cols, params)
      else .ok (query, params)

/-- Placeholder scanner state machine over the characters of a SQL fragment:
after a dollar sign, the maximal digit run is collected (the accumulator holds
it reversed); runs are emitted in order of appearance. -/
def phAux : List Char → Option (List Char) → List (List Char)
  | [], none => []
  | [], some cur => if cur.isEmpty then [] else [cur.reverse]
  | c :: rest, none =>
    if c = '$' then phAux rest (some []) else phAux rest none
  | c :: rest, some cur =>
    if c.isDigit then phAux rest (some (c :: cur))
    else
      (if cur.isEmpty then [] else [cur.reverse])
        ++ (if c = '$' then phAux rest (some []) else phAux rest none)

/-- The digit runs of the positional placeholders appearing in a character
sequence, in order of appearance. -/
def phRuns (l : List Char) : List (List Char) := phAux l none

/-- The digit runs of the positional placeholders appearing in a SQL string,
in order of appearance: `phStr s = [decDigits 1, decDigits 2]` says the
placeholders of `s` read left to right are exactly `$1` then `$2`. -/
def phStr (s : String) : List (List Char) := phRuns s.data

/-- A schema whose physical column names contain no dollar sign (true of any
real schema); needed so that column names interpolated into fragments cannot be
confused with placeholders. -/
def SchemaNoDollar (schema : ModelSchema) : Prop :=
  ∀ pa ∈ schema.attributes, '$' ∉ pa.1.data ∧ '$' ∉ (pa.2.columnName.getD "").data

/-- The central compiler invariant relating a params-list extension to the
placeholder runs of the emitted fragment: the fragment mentions, in order,
exactly the indices of the newly appended parameters. -/
def PlaceholderSpec (params params' : List WhereValue) (runs : List (List Char)) : Prop :=
  ∃ new, params' = params ++ new
    ∧ runs = (List.range' (params.length + 1) new.length).map decDigits

/-- A product model used for concrete evaluations: integer primary key, two
string columns, a string-array column with a differing physical name, and a
relation column referencing the store model. -/
def productSchema : ModelSchema :=
  { globalId := "Product"
    tableName := "products"
    attributes := [
      ("id", { emptyAttr with primaryKey := true, type := some "integer" }),
      ("name", { emptyAttr with type := some "string", required := true }),
      ("sku", { emptyAttr with type := some "string" }),
      ("aliases", { emptyAttr with columnName := some "alias_names", type := some "string[]" }),
      ("store", { emptyAttr with columnName := some "store_id", model := some "store" })] }

/-- A store model related to the product model. -/
def storeSchema : ModelSchema :=
  { globalId := "Store"
    tableName := "stores"
    attributes := [
      ("id", { emptyAttr with primaryKey := true, type := some "integer" }),
      ("name", { emptyAttr with type := some "string" })] }

/-- The model registry, keyed by lowercase model name. -/
def sampleRegistry : List (String × ModelSchema) :=
  [("product", productSchema), ("store", storeSchema)]

/-- A schema that declares a property literally named "and" with an array type,
used to observe that the dispatcher reads `attributes["and"]` when the `and`
comparator reaches the default branch. -/
def andAttrSchema : ModelSchema :=
  { globalId := "AndAttr"
    tableName := "and_attr"
    attributes := [("and", { emptyAttr with type := some "array", columnName := some "and_col" })] }

/-- A schema with no property named "and". -/
def plainSchema : ModelSchema :=
  { globalId := "Plain"
    tableName := "plain"
    attributes := [("x", { emptyAttr with type := some "integer" })] }

/-- Scanning a dollar-free prefix leaves the scanner in its initial state. -/
theorem phAux_skip (a x : List Char) (h : '$' ∉ a) :
    phAux (a ++ x) none = phAux x none := by
  induction a with
  | nil => rfl
  | cons c a' ih =>
    simp only [List.mem_cons, not_or] at h
    simp only [List.cons_append, phAux]
    rw [if_neg (fun hc => h.1 hc.symm)]
    exact ih h.2

/-- The scanner distributes over an append whose right part does not start
with a digit. -/
theorem phAux_append (a b : List Char) (s : Option (List Char))
    (hb : ∀ c, b.head? = some c → c.isDigit = false) :
    phAux (a ++ b) s = phAux a s ++ phAux b none := by
  induction a generalizing s with
  | nil =>
    match s with
    | none => simp [phAux]
    | some cur =>
      match b with
      | [] => simp [phAux]
      | c :: rest =>
        have hc : c.isDigit = false := hb c rfl
        simp [phAux, hc]
  | cons c a' ih =>
    match s with
    | none =>
      simp only [List.cons_append, phAux]
      by_cases hc : c = '$'
      · simp [hc, ih (some [])]
      · simp [hc, ih none]
    | some cur =>
      simp only [List.cons_append, phAux]
      by_cases hd : c.isDigit
      · simp [hd, ih (some (c :: cur))]
      · by_cases hc : c = '$'
        · simp [hd, hc, ih (some []), List.append_assoc]
        · simp [hd, hc, ih none, List.append_assoc]

/-- Scanning a run of digits extends the current placeholder accumulator. -/
theorem phAux_run (ds x cur : List Char) (h : ∀ c ∈ ds, c.isDigit = true) :
    phAux (ds ++ x) (some cur) = phAux x (some (ds.reverse ++ cur)) := by
  induction ds generalizing cur with
  | nil => simp
  | cons d ds' ih =>
    have hd : d.isDigit = true := h d (by simp)
    simp only [List.cons_append, phAux, hd, if_true, List.append_eq]
    rw [ih (d :: cur) (fun c hc => h c (by simp [hc]))]
    simp

/-- A nonempty accumulator flushes as the next emitted run when the next
character (if any) is not a digit. -/
theorem phAux_flush (x cur : List Char) (hcur : cur ≠ [])
    (hx : ∀ c, x.head? = some c → c.isDigit = false) :
    phAux x (some cur) = cur.reverse :: phAux x none := by
  match x with
  | [] => simp [phAux, hcur]
  | c :: rest =>
    have hc := hx c rfl
    simp [phAux, hc, hcur]

/-- Decimal digit characters are digits. -/
theorem digitChar48_isDigit (d : Nat) (h : d < 10) : (digitChar48 d).isDigit = true := by
  interval_cases d <;> decide

/-- Every character of a decimal expansion is a digit. -/
theorem decDigitsAux_all_digit (fuel : Nat) : ∀ n, ∀ c ∈ decDigitsAux fuel n, c.isDigit = true := by
  induction fuel with
  | zero =>
    intro n c hc
    simp only [decDigitsAux, List.mem_singleton] at hc
    subst hc
    exact digitChar48_isDigit _ (Nat.mod_lt _ (by norm_num))
  | succ f ih =>
    intro n c hc
    simp only [decDigitsAux] at hc
    split at hc
    · simp only [List.mem_singleton] at hc
      subst hc
      exact digitChar48_isDigit _ (by omega)
    · rcases List.mem_append.mp hc with h1 | h2
      · exact ih _ c h1
      · simp only [List.mem_singleton] at h2
        subst h2
        exact digitChar48_isDigit _ (Nat.mod_lt _ (by norm_num))

/-- Decimal expansions are nonempty. -/
theorem decDigitsAux_ne_nil (fuel n : Nat) : decDigitsAux fuel n ≠ [] := by
  cases fuel with
  | zero => simp [decDigitsAux]
  | succ f =>
    simp only [decDigitsAux]
    split
    · simp
    · simp

/-- Every character of `decDigits` is a digit. -/
theorem decDigits_all_digit (n : Nat) : ∀ c ∈ decDigits n, c.isDigit = true :=
  decDigitsAux_all_digit n n

/-- `decDigits` is nonempty. -/
theorem decDigits_ne_nil (n : Nat) : decDigits n ≠ [] := decDigitsAux_ne_nil n n

/-- The characters of the decimal rendering. -/
theorem decRepr_data (n : Nat) : (decRepr n).data = decDigits n := rfl

/-- Scanning a chunk that ends in a dollar sign followed by a decimal number
and a non-digit continuation emits that number's digit run. -/
theorem phAux_dollar (s : String) (k : Nat) (x : List Char)
    (h1 : '$' ∉ s.data.dropLast) (h2 : s.data.getLast? = some '$')
    (hx : ∀ c, x.head? = some c → c.isDigit = false) :
    phAux (s.data ++ ((decRepr k).data ++ x)) none = decDigits k :: phAux x none := by
  have hne : s.data ≠ [] := by
    intro h
    rw [h] at h2
    cases h2
  have hlast : s.data.getLast hne = '$' := by
    have := List.getLast?_eq_getLast s.data hne
    rw [this] at h2
    exact Option.some.inj h2
  have hdecomp : s.data = s.data.dropLast ++ ['$'] := by
    conv_lhs => rw [← List.dropLast_append_getLast hne]
    rw [hlast]
  rw [hdecomp, List.append_assoc, phAux_skip _ _ h1]
  show phAux ('$' :: ((decRepr k).data ++ x)) none = _
  simp only [phAux, if_pos rfl]
  rw [decRepr_data, phAux_run _ _ _ (decDigits_all_digit k)]
  rw [phAux_flush x _ (by simp [decDigits_ne_nil]) hx]
  simp

/-- Variant of `phAux_dollar` with nothing after the number. -/
theorem phAux_dollar_end (s : String) (k : Nat)
    (h1 : '$' ∉ s.data.dropLast) (h2 : s.data.getLast? = some '$') :
    phAux (s.data ++ (decRepr k).data) none = [decDigits k] := by
  have := phAux_dollar s k [] h1 h2 (by intro c hc; cases hc)
  simpa using this

/-- A dollar-free fragment has no placeholders. -/
theorem phStr_noDollar (s : String) (h : '$' ∉ s.data) : phStr s = [] := by
  have h0 : phAux (s.data ++ []) none = phAux [] none := phAux_skip s.data [] h
  simpa [phStr, phRuns] using h0

/-- Wrapping a fragment in parentheses does not change its placeholders. -/
theorem phStr_paren (x : String) : phStr ("(" ++ x ++ ")") = phStr x := by
  unfold phStr phRuns
  simp only [String.data_append]
  rw [List.append_assoc, phAux_skip _ _ (by decide)]
  rw [phAux_append x.data ((")" : String).data) none (by
    intro c hc
    have h0 : ((")" : String).data).head? = some ')' := rfl
    rw [h0] at hc
    cases hc
    decide)]
  have h1 : phAux ((")" : String).data) none = [] := rfl
  rw [h1, List.append_nil]

/-- Placeholders of a separator join are the concatenation of the pieces'
placeholders, for a dollar-free separator that does not start with a digit. -/
theorem phStr_joinSep (sep : String) (hsep : '$' ∉ sep.data)
    (hd : ∀ (x : List Char) (c : Char), (sep.data ++ x).head? = some c → c.isDigit = false) :
    ∀ ss, phStr (joinSep sep ss) = (ss.map phStr).flatten := by
  intro ss
  induction ss with
  | nil => simp [joinSep, phStr, phRuns, phAux]
  | cons s rest ih =>
    match rest with
    | [] => simp [joinSep]
    | s' :: rest' =>
      show phStr (s ++ sep ++ joinSep sep (s' :: rest')) = _
      unfold phStr phRuns
      simp only [String.data_append, List.append_assoc]
      rw [phAux_append s.data (sep.data ++ (joinSep sep (s' :: rest')).data) none
        (fun c hc => hd _ c hc)]
      rw [phAux_skip sep.data _ hsep]
      have ih' := ih
      simp only [phStr, phRuns] at ih'
      rw [ih']
      show phStr s ++ (List.map phStr (s' :: rest')).flatten
        = (List.map phStr (s :: s' :: rest')).flatten
      simp

/-- Placeholder concatenation for the AND join. -/
theorem phStr_join_AND (ss : List String) :
    phStr (joinSep " AND " ss) = (ss.map phStr).flatten := by
  refine phStr_joinSep " AND " (by decide) ?_ ss
  intro x c hc
  have h0 : (((" AND " : String).data) ++ x).head? = some ' ' := rfl
  rw [h0] at hc
  cases hc
  decide

/-- Placeholder concatenation for the OR join. -/
theorem phStr_join_OR (ss : List String) :
    phStr (joinSep " OR " ss) = (ss.map phStr).flatten := by
  refine phStr_joinSep " OR " (by decide) ?_ ss
  intro x c hc
  have h0 : (((" OR " : String).data) ++ x).head? = some ' ' := rfl
  rw [h0] at hc
  cases hc
  decide

/-- The empty placeholder extension. -/
theorem PlaceholderSpec.zero (params : List WhereValue) (runs : List (List Char))
    (h : runs = []) : PlaceholderSpec params params runs := by
  refine ⟨[], by simp, ?_⟩
  simp [h]

/-- Placeholder extensions compose. -/
theorem PlaceholderSpec.comp {p0 p1 p2 : List WhereValue} {r1 r2 : List (List Char)}
    (h1 : PlaceholderSpec p0 p1 r1) (h2 : PlaceholderSpec p1 p2 r2) :
    PlaceholderSpec p0 p2 (r1 ++ r2) := by
  obtain ⟨n1, rfl, rfl⟩ := h1
  obtain ⟨n2, rfl, rfl⟩ := h2
  refine ⟨n1 ++ n2, by simp, ?_⟩
  rw [← List.map_append]
  congr 1
  simp only [List.length_append]
  have e1 : p0.length + n1.length + 1 = p0.length + 1 + n1.length := by omega
  rw [e1]
  have hr := List.range'_append (p0.length + 1) n1.length n2.length 1
  simp only [one_mul] at hr
  rw [hr, Nat.add_comm n2.length n1.length]

/-- A single pushed parameter with its placeholder run. -/
theorem PlaceholderSpec.push (params : List WhereValue) (v : WhereValue)
    (runs : List (List Char)) (h : runs = [decDigits (params.length + 1)]) :
    PlaceholderSpec params (params ++ [v]) runs := by
  refine ⟨[v], rfl, ?_⟩
  simp [h, List.range'_one]

/-- Dollar-freeness is preserved by append. -/
theorem noDollar_append {a b : String} (ha : '$' ∉ a.data) (hb : '$' ∉ b.data) :
    '$' ∉ (a ++ b).data := by
  simp only [String.data_append, List.mem_append, not_or]
  exact ⟨ha, hb⟩

/-- Transfer a head of a known literal to the non-digit side condition. -/
theorem head_nondigit {b : String} (c0 : Char) (h0 : b.data.head? = some c0)
    (h1 : c0.isDigit = false) : ∀ c, b.data.head? = some c → c.isDigit = false := by
  intro c hc
  rw [h0] at hc
  cases hc
  exact h1

/-- String-level scanner distribution over append. -/
theorem phStr_append_nd (a b : String)
    (hb : ∀ c, b.data.head? = some c → c.isDigit = false) :
    phStr (a ++ b) = phStr a ++ phStr b := by
  unfold phStr phRuns
  rw [String.data_append]
  exact phAux_append a.data b.data none hb

/-- A fragment of the form `pre ++ tail$ ++ <number>` has exactly that
number's placeholder. -/
theorem phStr_endDollar (pre tail : String) (k : Nat)
    (hpre : '$' ∉ pre.data) (ht1 : '$' ∉ tail.data.dropLast)
    (ht2 : tail.data.getLast? = some '$') :
    phStr ((pre ++ tail) ++ decRepr k) = [decDigits k] := by
  unfold phStr phRuns
  simp only [String.data_append, List.append_assoc]
  rw [phAux_skip _ _ hpre]
  exact phAux_dollar_end tail k ht1 ht2

/-- A fragment that starts with its placeholder. -/
theorem phStr_dollarFirst (k : Nat) : phStr ("$" ++ decRepr k) = [decDigits k] := by
  unfold phStr phRuns
  rw [String.data_append]
  exact phAux_dollar_end "$" k (by decide) rfl

/-- The found attribute entry is a member of the attribute list. -/
theorem lookupAttr_mem (schema : ModelSchema) (p : String) (a : Attr)
    (h : lookupAttr schema p = some a) : (p, a) ∈ schema.attributes := by
  unfold lookupAttr at h
  split at h
  next pa hfind =>
    cases h
    have hmem := List.mem_of_find?_eq_some hfind
    have hpred := List.find?_some hfind
    simp only [decide_eq_true_eq] at hpred
    have : pa = (p, pa.2) := by
      cases pa
      simp_all
    rw [this] at hmem
    exact hmem
  next => cases h

/-- Resolved column names in a dollar-free schema are dollar-free. -/
theorem getColumnName_noDollar {schema : ModelSchema} {pn : Option String} {col : String}
    (hS : SchemaNoDollar schema) (h : _getColumnName schema pn = .ok col) :
    '$' ∉ col.data := by
  unfold _getColumnName at h
  split at h
  · cases hl : lookupAttr schema (pn.getD "") with
    | none =>
      simp only [hl] at h
      cases h
    | some a =>
      simp only [hl] at h
      have hmem := lookupAttr_mem schema _ a hl
      have hSa := hS _ hmem
      cases hc : a.columnName with
      | none =>
        simp only [hc] at h
        cases h
        exact hSa.1
      | some c =>
        simp only [hc] at h
        by_cases hce : c.isEmpty = true
        · rw [if_pos hce] at h
          cases h
          exact hSa.1
        · rw [if_neg hce] at h
          cases h
          have h2 := hSa.2
          rw [hc] at h2
          exact h2
  · cases h

/-- Placeholder invariant for the scalar like path. -/
theorem likeScalar_spec {schema : ModelSchema} {pn : Option String} {neg : Bool}
    {v : WhereValue} {params : List WhereValue} {s : String} {params' : List WhereValue}
    (hS : SchemaNoDollar schema)
    (h : likeScalar schema pn neg v params = .ok (s, params')) :
    PlaceholderSpec params params' (phStr s) := by
  unfold likeScalar at h
  cases v with
  | undef => cases h
  | null => cases h
  | num n => cases h
  | bool b => cases h
  | date d => cases h
  | arr l => cases h
  | obj e => cases h
  | str s0 =>
    cases hcol : _getColumnName schema pn with
    | error e =>
      simp only [hcol] at h
      cases h
    | ok columnName =>
      simp only [hcol] at h
      have hc : '$' ∉ columnName.data := getColumnName_noDollar hS hcol
      by_cases hse : s0.isEmpty = true
      · rw [if_pos hse] at h
        cases h
        refine PlaceholderSpec.zero _ _ (phStr_noDollar _ ?_)
        repeat' apply noDollar_append
        all_goals first
          | exact hc
          | (cases neg <;> decide)
          | decide
      · rw [if_neg hse] at h
        split at h
        · cases h
          refine PlaceholderSpec.push _ _ _ ?_
          rw [phStr_append_nd _ ")" (head_nondigit ')' rfl (by decide)),
            phStr_noDollar ")" (by decide)]
          rw [phStr_endDollar]
          · simp
          · repeat' apply noDollar_append
            all_goals first
              | exact hc
              | (cases neg <;> decide)
              | decide
          · decide
          · decide
        · cases h
          refine PlaceholderSpec.push _ _ _ ?_
          rw [phStr_endDollar]
          · simp
          · repeat' apply noDollar_append
            all_goals first
              | exact hc
              | (cases neg <;> decide)
              | decide
          · decide
          · decide

/-- Stripping a dollar-free prefix at the string level. -/
theorem phStr_skip (a b : String) (h : '$' ∉ a.data) : phStr (a ++ b) = phStr b := by
  unfold phStr phRuns
  rw [String.data_append]
  exact phAux_skip _ _ h

/-- A chunk ending in a dollar followed by a number and a non-digit
continuation. -/
theorem phStr_dollarTail (t : String) (k : Nat) (post : String)
    (h1 : '$' ∉ t.data.dropLast) (h2 : t.data.getLast? = some '$')
    (hpost : ∀ c, post.data.head? = some c → c.isDigit = false) :
    phStr (t ++ (decRepr k ++ post)) = decDigits k :: phStr post := by
  unfold phStr phRuns
  simp only [String.data_append]
  exact phAux_dollar t k post.data h1 h2 hpost

/-- A chunk ending in a dollar followed by a final number. -/
theorem phStr_dollarTailEnd (t : String) (k : Nat)
    (h1 : '$' ∉ t.data.dropLast) (h2 : t.data.getLast? = some '$') :
    phStr (t ++ decRepr k) = [decDigits k] := by
  unfold phStr phRuns
  rw [String.data_append]
  exact phAux_dollar_end t k h1 h2

/-- Head character of an append with a known nonempty left literal. -/
theorem head_nondigit_append (b y : String) (c0 : Char) (h0 : b.data.head? = some c0)
    (h1 : c0.isDigit = false) :
    ∀ c, ((b ++ y) : String).data.head? = some c → c.isDigit = false := by
  intro c hc
  rw [String.data_append] at hc
  cases hbd : b.data with
  | nil =>
    rw [hbd] at h0
    cases h0
  | cons x xs =>
    rw [hbd] at h0 hc
    simp only [List.cons_append, List.head?_cons] at h0 hc
    cases h0
    cases hc
    exact h1

/-- Placeholder invariant for the like operator statement. -/
theorem buildLike_spec {schema : ModelSchema} {pn : Option String} {neg : Bool}
    {v : WhereValue} {params : List WhereValue} {s : String} {params' : List WhereValue}
    (hS : SchemaNoDollar schema)
    (h : _buildLikeOperatorStatement schema pn neg v params = .ok (s, params')) :
    PlaceholderSpec params params' (phStr s) := by
  unfold _buildLikeOperatorStatement at h
  split at h
  case _ l =>
    by_cases he : l.isEmpty = true
    · rw [if_pos he] at h
      cases h
      exact PlaceholderSpec.zero _ _ (phStr_noDollar _ (by cases neg <;> decide))
    · rw [if_neg he] at h
      by_cases hlen : l.length > 1
      · rw [if_pos hlen] at h
        cases hlow : lowerAll l with
        | error e =>
          simp only [hlow] at h
          cases h
        | ok lowerValues =>
          simp only [hlow] at h
          cases hcol : _getColumnName schema pn with
          | error e =>
            simp only [hcol] at h
            cases h
          | ok columnName =>
            simp only [hcol] at h
            have hc := getColumnName_noDollar hS hcol
            split at h
            · cases h
              refine PlaceholderSpec.push _ _ _ ?_
              simp only [String.append_assoc]
              rw [phStr_skip _ _ (by decide), phStr_skip _ _ hc, phStr_skip _ _ (by decide),
                phStr_skip _ _ hc, phStr_skip _ _ (by decide), phStr_skip _ _ hc,
                phStr_skip _ _ (by decide), phStr_skip _ _ (by cases neg <;> decide)]
              rw [phStr_dollarTail _ _ "::TEXT[]))" (by decide) (by decide)
                (head_nondigit ':' rfl (by decide))]
              rw [phStr_noDollar _ (by decide)]
              simp
            · cases h
              refine PlaceholderSpec.push _ _ _ ?_
              simp only [String.append_assoc]
              rw [phStr_skip _ _ (by decide), phStr_skip _ _ hc, phStr_skip _ _ (by decide),
                phStr_skip _ _ (by cases neg <;> decide)]
              rw [phStr_dollarTail _ _ "::TEXT[])" (by decide) (by decide)
                (head_nondigit ':' rfl (by decide))]
              rw [phStr_noDollar _ (by decide)]
              simp
      · rw [if_neg hlen] at h
        exact likeScalar_spec hS h
  case _ =>
    exact likeScalar_spec hS h

/-- Placeholder invariant for the comparison operator statement. -/
theorem buildComparison_spec {schema : ModelSchema} {pn cp : Option String} {neg : Bool}
    {v : WhereValue} {params : List WhereValue} {s : String} {params' : List WhereValue}
    (hS : SchemaNoDollar schema)
    (h : _buildComparisonOperatorStatement schema pn cp neg v params = .ok (s, params')) :
    PlaceholderSpec params params' (phStr s) := by
  unfold _buildComparisonOperatorStatement at h
  cases hcol : _getColumnName schema pn with
  | error e =>
    simp only [hcol] at h
    cases h
  | ok columnName =>
    simp only [hcol] at h
    have hc := getColumnName_noDollar hS hcol
    split at h
    · -- null value
      cases h
      refine PlaceholderSpec.zero _ _ (phStr_noDollar _ ?_)
      repeat' apply noDollar_append
      all_goals first
        | exact hc
        | (cases neg <;> decide)
        | decide
    · -- non-null value
      split at h
      · split at h
        · cases h
          refine PlaceholderSpec.push _ _ _ ?_
          simp only [String.append_assoc]
          rw [phStr_skip _ _ (by decide), phStr_skip _ _ hc, phStr_skip _ _ (by decide),
            phStr_skip _ _ (by cases neg <;> decide)]
          rw [phStr_dollarTailEnd "$" _ (by decide) (by decide)]
          simp
        · cases h
      · split at h
        · cases h
          refine PlaceholderSpec.push _ _ _ ?_
          simp only [String.append_assoc]
          rw [phStr_skip _ _ (by decide), phStr_skip _ _ hc, phStr_skip _ _ (by decide),
            phStr_skip _ _ (by cases neg <;> decide)]
          rw [phStr_dollarTailEnd "$" _ (by decide) (by decide)]
          simp
        · cases h
      · split at h
        · cases h
          refine PlaceholderSpec.push _ _ _ ?_
          simp only [String.append_assoc]
          rw [phStr_skip _ _ (by decide), phStr_skip _ _ hc, phStr_skip _ _ (by decide),
            phStr_skip _ _ (by cases neg <;> decide)]
          rw [phStr_dollarTailEnd "$" _ (by decide) (by decide)]
          simp
        · cases h
      · split at h
        · cases h
          refine PlaceholderSpec.push _ _ _ ?_
          simp only [String.append_assoc]
          rw [phStr_skip _ _ (by decide), phStr_skip _ _ hc, phStr_skip _ _ (by decide),
            phStr_skip _ _ (by cases neg <;> decide)]
          rw [phStr_dollarTailEnd "$" _ (by decide) (by decide)]
          simp
        · cases h
      · split at h
        · cases h
          refine PlaceholderSpec.push _ _ _ ?_
          simp only [String.append_assoc]
          rw [phStr_dollarTail "$" _ _ (by decide) (by decide) ?hp]
          case hp =>
            cases neg
            · exact head_nondigit_append _ _ '=' rfl (by decide)
            · exact head_nondigit_append _ _ '<' rfl (by decide)
          rw [phStr_skip _ _ (by cases neg <;> decide), phStr_skip _ _ (by decide),
            phStr_skip _ _ hc, phStr_noDollar _ (by decide)]
          simp
        · cases h
          refine PlaceholderSpec.push _ _ _ ?_
          simp only [String.append_assoc]
          rw [phStr_skip _ _ (by decide), phStr_skip _ _ hc, phStr_skip _ _ (by decide),
            phStr_skip _ _ (by cases neg <;> decide)]
          rw [phStr_dollarTailEnd "$" _ (by decide) (by decide)]
          simp

/-- The final single/AND/OR join shared by the or-operator and array branches. -/
theorem orJoin_spec {params paramsF params' : List WhereValue} {s : String}
    {orConstraints : List String} {neg : Bool}
    (key : PlaceholderSpec params paramsF ((orConstraints.map phStr).flatten))
    (h : (if orConstraints.length = 1 then
            (Except.ok (orConstraints.headD "", paramsF) : Except SqlError (String × List WhereValue))
          else if neg = true then
            Except.ok (joinSep " AND " orConstraints, paramsF)
          else
            Except.ok ("(" ++ joinSep " OR " orConstraints ++ ")", paramsF))
        = .ok (s, params')) :
    PlaceholderSpec params params' (phStr s) := by
  split at h
  next hlen =>
    cases h
    obtain ⟨x, rfl⟩ := List.length_eq_one.mp hlen
    simpa using key
  next hlen =>
    split at h
    · cases h
      rwa [phStr_join_AND]
    · cases h
      rw [phStr_paren, phStr_join_OR]
      exact key

set_option maxHeartbeats 1600000

/-- The placeholder invariant for all mutually recursive compiler functions. -/
theorem ph_invariant (msbgi : List (String × ModelSchema)) (schema : ModelSchema)
    (hS : SchemaNoDollar schema) :
    ∀ fuel : Nat,
    (∀ pn cp neg v params s params',
      _buildWhere fuel msbgi schema pn cp neg v params = .ok (s, params') →
      PlaceholderSpec params params' (phStr s))
    ∧ (∀ pn cp neg v params s params',
      buildWhereDefault fuel msbgi schema pn cp neg v params = .ok (s, params') →
      PlaceholderSpec params params' (phStr s))
    ∧ (∀ pn cp neg l params s params',
      buildWhereArray fuel msbgi schema pn cp neg l params = .ok (s, params') →
      PlaceholderSpec params params' (phStr s))
    ∧ (∀ neg items params ss params',
      buildOrClauses fuel msbgi schema neg items params = .ok (ss, params') →
      PlaceholderSpec params params' ((ss.map phStr).flatten))
    ∧ (∀ pn neg items params cs vals params',
      buildNullOrValues fuel msbgi schema pn neg items params = .ok (cs, vals, params') →
      PlaceholderSpec params params' ((cs.map phStr).flatten))
    ∧ (∀ pn neg vals params cs params',
      buildValueConstraints fuel msbgi schema pn neg vals params = .ok (cs, params') →
      PlaceholderSpec params params' ((cs.map phStr).flatten))
    ∧ (∀ pn neg es params ss params',
      buildWhereEntries fuel msbgi schema pn neg es params = .ok (ss, params') →
      PlaceholderSpec params params' ((ss.map phStr).flatten)) := by
  intro fuel
  induction fuel with
  | zero =>
    refine ⟨?_, ?_, ?_, ?_, ?_, ?_, ?_⟩
    · intro pn cp neg v params s params' h
      simp [_buildWhere] at h
    · intro pn cp neg v params s params' h
      simp [buildWhereDefault] at h
    · intro pn cp neg l params s params' h
      simp [buildWhereArray] at h
    · intro neg items params ss params' h
      simp [buildOrClauses] at h
    · intro pn neg items params cs vals params' h
      simp [buildNullOrValues] at h
    · intro pn neg vals params cs params' h
      simp [buildValueConstraints] at h
    · intro pn neg es params ss params' h
      simp [buildWhereEntries] at h
  | succ n ih =>
    obtain ⟨ihW, ihD, ihA, ihO, ihN, ihV, ihE⟩ := ih
    refine ⟨?_, ?_, ?_, ?_, ?_, ?_, ?_⟩
    · -- _buildWhere dispatch
      intro pn cp neg v params s params' h
      simp only [_buildWhere] at h
      split at h
      · exact ihW _ _ _ _ _ _ _ h
      · split at h
        · -- or
          split at h
          · cases h
          · split at h
            · cases h
            · next orClauses params1 heqO =>
              exact orJoin_spec (ihO _ _ _ _ _ heqO) h
        · split at h
          · -- contains
            split at h
            · split at h
              · cases h
              · exact ihW _ _ _ _ _ _ _ h
            · exact ihW _ _ _ _ _ _ _ h
            · cases h
          · split at h
            · -- startsWith
              split at h
              · split at h
                · cases h
                · exact ihW _ _ _ _ _ _ _ h
              · exact ihW _ _ _ _ _ _ _ h
              · cases h
            · split at h
              · -- endsWith
                split at h
                · split at h
                  · cases h
                  · exact ihW _ _ _ _ _ _ _ h
                · exact ihW _ _ _ _ _ _ _ h
                · cases h
              · split at h
                · exact buildLike_spec hS h
                · exact ihD _ _ _ _ _ _ _ h
    · -- buildWhereDefault
      intro pn cp neg v params s params' h
      simp only [buildWhereDefault] at h
      split at h
      · cases h
      · split at h
        · cases h
        · exact ihW _ _ _ _ _ _ _ h
        · split at h
          · -- array value
            split at h
            · -- empty array
              split at h
              · split at h
                · cases h
                · next arrayColumnName heqC =>
                  cases h
                  refine PlaceholderSpec.zero _ _ (phStr_noDollar _ ?_)
                  repeat' apply noDollar_append
                  all_goals first
                    | exact getColumnName_noDollar hS heqC
                    | (cases neg <;> decide)
                    | decide
              · split at h
                · cases h
                  exact PlaceholderSpec.zero _ _ (phStr_noDollar _ (by decide))
                · cases h
                  exact PlaceholderSpec.zero _ _ (phStr_noDollar _ (by decide))
            · exact ihA _ _ _ _ _ _ _ h
          · -- object value
            split at h
            · cases h
            · next andValues params1 heqE =>
              cases h
              rw [phStr_join_AND]
              exact ihE _ _ _ _ _ _ heqE
          · exact buildComparison_spec hS h
    · -- buildWhereArray
      intro pn cp neg l params s params' h
      simp only [buildWhereArray] at h
      split at h
      · cases h
      · next nullConstraints valueWithoutNull params1 heqN =>
        have sN := ihN _ _ _ _ _ _ _ heqN
        split at h
        · cases h
        · next orConstraints paramsF heq2 =>
          refine orJoin_spec ?_ h
          split at heq2
          · cases heq2
            exact sN
          · split at heq2
            · cases heq2
            · next c params2 heqW =>
              cases heq2
              have sW := ihW _ _ _ _ _ _ _ heqW
              have := PlaceholderSpec.comp sN sW
              simpa using this
          · split at heq2
            · cases heq2
            · next columnName heqC =>
              have hc := getColumnName_noDollar hS heqC
              split at heq2
              · split at heq2
                · cases heq2
                · next cs2 params2 heqV =>
                  cases heq2
                  have sV := ihV _ _ _ _ _ _ heqV
                  have := PlaceholderSpec.comp sN sV
                  simpa using this
              · cases heq2
                simp only [List.map_append, List.map_cons, List.map_nil,
                  List.flatten_append, List.flatten_cons, List.flatten_nil]
                simp only [String.append_assoc]
                rw [phStr_skip _ _ (by decide), phStr_skip _ _ hc,
                  phStr_skip _ _ (by decide),
                  phStr_skip _ _ (by cases neg <;> decide)]
                rw [phStr_dollarTail _ _ _ (by decide) (by decide)
                  (head_nondigit_append _ ")" ':'
                    (by unfold castTypeFor; split <;> rfl) (by decide))]
                rw [phStr_skip _ _ (by unfold castTypeFor; split <;> decide),
                  phStr_noDollar _ (by decide)]
                have := PlaceholderSpec.comp sN
                  (PlaceholderSpec.push params1 (WhereValue.arr valueWithoutNull)
                    [decDigits (params1.length + 1)] rfl)
                simpa using this
    · -- buildOrClauses
      intro neg items params ss params' h
      cases items with
      | nil =>
        simp only [buildOrClauses] at h
        cases h
        exact PlaceholderSpec.zero _ _ (by simp)
      | cons c rest =>
        simp only [buildOrClauses] at h
        split at h
        · cases h
        · next orClause params1 heq1 =>
          split at h
          · cases h
          · next clauses params2 heq2 =>
            cases h
            have s1 := ihW _ _ _ _ _ _ _ heq1
            have s2 := ihO _ _ _ _ _ heq2
            have := PlaceholderSpec.comp s1 s2
            simpa [phStr_paren] using this
    · -- buildNullOrValues
      intro pn neg items params cs vals params' h
      cases items with
      | nil =>
        simp only [buildNullOrValues] at h
        cases h
        exact PlaceholderSpec.zero _ _ (by simp)
      | cons item rest =>
        simp only [buildNullOrValues] at h
        split at h
        · split at h
          · cases h
          · next c params1 heq1 =>
            split at h
            · cases h
            · next cs' vals' params2 heq2 =>
              cases h
              have s1 := ihW _ _ _ _ _ _ _ heq1
              have s2 := ihN _ _ _ _ _ _ _ heq2
              have := PlaceholderSpec.comp s1 s2
              simpa using this
        · split at h
          · cases h
          · next cs' vals' params1 heq1 =>
            cases h
            exact ihN _ _ _ _ _ _ _ heq1
    · -- buildValueConstraints
      intro pn neg vals params cs params' h
      cases vals with
      | nil =>
        simp only [buildValueConstraints] at h
        cases h
        exact PlaceholderSpec.zero _ _ (by simp)
      | cons val rest =>
        simp only [buildValueConstraints] at h
        split at h
        · cases h
        · next c params1 heq1 =>
          split at h
          · cases h
          · next cs' params2 heq2 =>
            cases h
            have s1 := ihW _ _ _ _ _ _ _ heq1
            have s2 := ihV _ _ _ _ _ _ heq2
            have := PlaceholderSpec.comp s1 s2
            simpa using this
    · -- buildWhereEntries
      intro pn neg es params ss params' h
      cases es with
      | nil =>
        simp only [buildWhereEntries] at h
        cases h
        exact PlaceholderSpec.zero _ _ (by simp)
      | cons e rest =>
        simp only [buildWhereEntries] at h
        split at h
        · cases h
        · next s1 params1 heq1 =>
          split at h
          · cases h
          · next ss' params2 heq2 =>
            cases h
            have w1 := ihW _ _ _ _ _ _ _ heq1
            have w2 := ihE _ _ _ _ _ _ heq2
            have := PlaceholderSpec.comp w1 w2
            simpa using this

/-- Claim C1: for every where expression compiled by the where-clause compiler
(entered, as `_buildWhereStatement` does, with the implicit top-level `and`
comparator and an empty parameter list), the placeholder digit runs appearing
in the emitted SQL fragment, read in order of appearance, are exactly the
decimal renderings of 1, 2, …, params.length — strictly increasing, no gaps,
no duplicates — so `$k` corresponds to `params[k-1]`. The schema hypothesis
only excludes dollar signs inside physical column names. -/
theorem C1_placeholders_in_order (fuel : Nat) (msbgi : List (String × ModelSchema))
    (schema : ModelSchema) (w : WhereValue) (frag : String) (params : List WhereValue)
    (hS : SchemaNoDollar schema)
    (h : _buildWhere fuel msbgi schema none (some "and") false w [] = .ok (frag, params)) :
    phStr frag = (List.range' 1 params.length).map decDigits := by
  obtain ⟨new, hp, hr⟩ := (ph_invariant msbgi schema hS fuel).1 _ _ _ _ _ _ _ h
  simp only [List.nil_append] at hp
  subst hp
  simpa using hr

/-- Witness for C1 at a concrete compile: two placeholders, runs "1" then "2". -/
theorem C1_placeholders_in_order_witness :
    phStr "\"name\"=$1 AND \"id\"=ANY($2::INTEGER[])"
      = (List.range' 1 ([WhereValue.str "x",
          WhereValue.arr [WhereValue.num 1, WhereValue.num 2]] : List WhereValue).length).map
          decDigits :=
  C1_placeholders_in_order 100 sampleRegistry productSchema
    (.obj [("name", .str "x"), ("id", .arr [.num 1, .num 2])])
    "\"name\"=$1 AND \"id\"=ANY($2::INTEGER[])"
    [WhereValue.str "x", WhereValue.arr [WhereValue.num 1, WhereValue.num 2]]
    (by unfold SchemaNoDollar; decide) (by rfl)

/-- Unfolding of the or-clause loop on a two-element sequence. -/
theorem buildOrClauses_pair (n : Nat) (msbgi : List (String × ModelSchema))
    (schema : ModelSchema) (neg : Bool) (A B : WhereValue) (params : List WhereValue) :
    buildOrClauses (n+3) msbgi schema neg [A, B] params
      = match _buildWhere (n+2) msbgi schema none none neg A params with
        | .error e => .error e
        | .ok (fa, p1) =>
          match _buildWhere (n+1) msbgi schema none none neg B p1 with
          | .error e => .error e
          | .ok (fb, p2) => .ok (["(" ++ fa ++ ")", "(" ++ fb ++ ")"], p2) := by
  cases hA : _buildWhere (n+2) msbgi schema none none neg A params with
  | error e => simp only [buildOrClauses, hA]
  | ok pa =>
    obtain ⟨fa, p1⟩ := pa
    cases hB : _buildWhere (n+1) msbgi schema none none neg B p1 with
    | error e => simp only [buildOrClauses, hA, hB]
    | ok pb =>
      obtain ⟨fb, p2⟩ := pb
      simp only [buildOrClauses, hA, hB]

/-- Unfolding of the or operator on a two-element sequence: negated joins the
independently compiled negated terms with AND, non-negated joins with OR and
parenthesizes. -/
theorem buildWhere_or_pair (n : Nat) (msbgi : List (String × ModelSchema))
    (schema : ModelSchema) (neg : Bool) (A B : WhereValue) (params : List WhereValue) :
    _buildWhere (n+4) msbgi schema none (some "or") neg (.arr [A, B]) params
      = match _buildWhere (n+2) msbgi schema none none neg A params with
        | .error e => .error e
        | .ok (fa, p1) =>
          match _buildWhere (n+1) msbgi schema none none neg B p1 with
          | .error e => .error e
          | .ok (fb, p2) =>
            if neg = true then
              .ok (("(" ++ fa ++ ")") ++ " AND " ++ ("(" ++ fb ++ ")"), p2)
            else
              .ok ("(" ++ (("(" ++ fa ++ ")") ++ " OR " ++ ("(" ++ fb ++ ")")) ++ ")", p2) := by
  have step : _buildWhere (n+4) msbgi schema none (some "or") neg (.arr [A, B]) params
      = (match buildOrClauses (n+3) msbgi schema neg [A, B] params with
         | .error e => .error e
         | .ok (orClauses, params') =>
           if orClauses.length = 1 then .ok (orClauses.headD "", params')
           else if neg = true then .ok (joinSep " AND " orClauses, params')
           else .ok ("(" ++ joinSep " OR " orClauses ++ ")", params')) := rfl
  rw [step, buildOrClauses_pair]
  cases hA : _buildWhere (n+2) msbgi schema none none neg A params with
  | error e => simp only [hA]
  | ok pa =>
    obtain ⟨fa, p1⟩ := pa
    cases hB : _buildWhere (n+1) msbgi schema none none neg B p1 with
    | error e => simp only [hA, hB]
    | ok pb =>
      obtain ⟨fb, p2⟩ := pb
      simp only [hA, hB]
      cases neg <;> simp [joinSep]

/-- Claim C2: `not({or: [A, B]})` compiles by De Morgan — the negated or joins
the independently compiled negated terms (in the shared, growing parameter
list) with AND, while the non-negated or joins them with OR and adds outer
parentheses. The pair of equations holds for all sub-expressions A and B. -/
theorem C2_not_or_deMorgan (n : Nat) (msbgi : List (String × ModelSchema))
    (schema : ModelSchema) (A B : WhereValue) (params : List WhereValue) :
    (_buildWhere (n+8) msbgi schema none (some "not") false
        (.obj [("or", .arr [A, B])]) params
      = match _buildWhere (n+2) msbgi schema none none true A params with
        | .error e => .error e
        | .ok (fa, p1) =>
          match _buildWhere (n+1) msbgi schema none none true B p1 with
          | .error e => .error e
          | .ok (fb, p2) =>
            .ok (("(" ++ fa ++ ")") ++ " AND " ++ ("(" ++ fb ++ ")"), p2))
    ∧ (_buildWhere (n+4) msbgi schema none (some "or") false (.arr [A, B]) params
      = match _buildWhere (n+2) msbgi schema none none false A params with
        | .error e => .error e
        | .ok (fa, p1) =>
          match _buildWhere (n+1) msbgi schema none none false B p1 with
          | .error e => .error e
          | .ok (fb, p2) =>
            .ok ("(" ++ (("(" ++ fa ++ ")") ++ " OR " ++ ("(" ++ fb ++ ")")) ++ ")", p2)) := by
  constructor
  · have t1 : _buildWhere (n+8) msbgi schema none (some "not") false
        (.obj [("or", .arr [A, B])]) params
        = _buildWhere (n+7) msbgi schema none none true (.obj [("or", .arr [A, B])]) params := rfl
    have t2 : _buildWhere (n+7) msbgi schema none none true (.obj [("or", .arr [A, B])]) params
        = buildWhereDefault (n+6) msbgi schema none none true (.obj [("or", .arr [A, B])]) params := rfl
    have t3 : buildWhereDefault (n+6) msbgi schema none none true
        (.obj [("or", .arr [A, B])]) params
        = (match buildWhereEntries (n+5) msbgi schema none true [("or", .arr [A, B])] params with
           | .error e => .error e
           | .ok (andValues, p') => .ok (joinSep " AND " andValues, p')) := rfl
    have t4 : buildWhereEntries (n+5) msbgi schema none true [("or", .arr [A, B])] params
        = (match _buildWhere (n+4) msbgi schema none (some "or") true (.arr [A, B]) params with
           | .error e => .error e
           | .ok (s1, p1) =>
             match buildWhereEntries (n+4) msbgi schema none true [] p1 with
             | .error e => .error e
             | .ok (ss, p2) => .ok (s1 :: ss, p2)) := rfl
    rw [t1, t2, t3, t4, buildWhere_or_pair]
    cases hA : _buildWhere (n+2) msbgi schema none none true A params with
    | error e => simp only [hA]
    | ok pa =>
      obtain ⟨fa, p1⟩ := pa
      cases hB : _buildWhere (n+1) msbgi schema none none true B p1 with
      | error e => simp only [hA, hB]
      | ok pb =>
        obtain ⟨fb, p2⟩ := pb
        have t5 : buildWhereEntries (n+4) msbgi schema none true [] p2 = .ok ([], p2) := rfl
        simp [hA, hB, t5, joinSep]
  · rw [buildWhere_or_pair]
    cases hA : _buildWhere (n+2) msbgi schema none none false A params with
    | error e => simp only [hA]
    | ok pa =>
      obtain ⟨fa, p1⟩ := pa
      cases hB : _buildWhere (n+1) msbgi schema none none false B p1 with
      | error e => simp only [hA, hB]
      | ok pb =>
        obtain ⟨fb, p2⟩ := pb
        simp [hA, hB, joinSep]

/-- Unfolding of the or-clause loop on a single-element sequence. -/
theorem buildOrClauses_single (n : Nat) (msbgi : List (String × ModelSchema))
    (schema : ModelSchema) (neg : Bool) (A : WhereValue) (params : List WhereValue) :
    buildOrClauses (n+2) msbgi schema neg [A] params
      = match _buildWhere (n+1) msbgi schema none none neg A params with
        | .error e => .error e
        | .ok (c, p1) => .ok (["(" ++ c ++ ")"], p1) := by
  cases hA : _buildWhere (n+1) msbgi schema none none neg A params with
  | error e => simp only [buildOrClauses, hA]
  | ok pa =>
    obtain ⟨c, p1⟩ := pa
    simp only [buildOrClauses, hA]

/-- Claim C8 (amended): a one-element or compiles its element with the same
negation flag and the same parameter appends and wraps the result in one pair
of parentheses; no AND/OR join is added. -/
theorem C8_or_single_wrapped (n : Nat) (msbgi : List (String × ModelSchema))
    (schema : ModelSchema) (neg : Bool) (A : WhereValue) (params : List WhereValue) :
    _buildWhere (n+3) msbgi schema none (some "or") neg (.arr [A]) params
      = match _buildWhere (n+1) msbgi schema none none neg A params with
        | .error e => .error e
        | .ok (c, p1) => .ok ("(" ++ c ++ ")", p1) := by
  have step : _buildWhere (n+3) msbgi schema none (some "or") neg (.arr [A]) params
      = (match buildOrClauses (n+2) msbgi schema neg [A] params with
         | .error e => .error e
         | .ok (orClauses, params') =>
           if orClauses.length = 1 then .ok (orClauses.headD "", params')
           else if neg = true then .ok (joinSep " AND " orClauses, params')
           else .ok ("(" ++ joinSep " OR " orClauses ++ ")", params')) := rfl
  rw [step, buildOrClauses_single]
  cases hA : _buildWhere (n+1) msbgi schema none none neg A params with
  | error e => simp only [hA]
  | ok pa =>
    obtain ⟨c, p1⟩ := pa
    simp [hA]

/-- Claim C8 counterexample: the or handler wraps a single clause in
parentheses when pushing it, so a one-element or does not return the element's
compilation unwrapped — the two compilations differ by one pair of
parentheses. -/
theorem C8_counterexample :
    _buildWhere 10 sampleRegistry productSchema none (some "or") false
        (.arr [.obj [("name", .str "x")]]) []
      = .ok ("(\"name\"=$1)", [.str "x"])
    ∧ _buildWhere 10 sampleRegistry productSchema none none false
        (.obj [("name", .str "x")]) []
      = .ok ("\"name\"=$1", [.str "x"])
    ∧ ("(\"name\"=$1)" : String) ≠ "\"name\"=$1" :=
  ⟨by rfl, by rfl, by decide⟩

/-- Claim C9: the classifier accepts "and" as a comparator token, but the
dispatch switch has no "and" case: an "and" key routes its array value to the
generic default branch, which treats "and" as an attribute lookup and fails
with the missing-property-name error instead of AND-joining the
sub-expressions (which compile fine on their own); with an attribute literally
named "and" of array type, the empty-array value is typed through
`attributes["and"]`. -/
theorem C9_and_comparator_mismatch :
    _isComparer "and" = true
    ∧ _buildWhere 50 sampleRegistry productSchema none (some "and") false
        (.obj [("and", .arr [.obj [("name", .str "x")], .obj [("sku", .str "y")]])]) []
      = .error .propertyNameNotDefined
    ∧ _buildWhere 50 sampleRegistry productSchema none (some "and") false
        (.obj [("name", .str "x")]) [] = .ok ("\"name\"=$1", [.str "x"])
    ∧ _buildWhere 50 sampleRegistry productSchema none (some "and") false
        (.obj [("sku", .str "y")]) [] = .ok ("\"sku\"=$1", [.str "y"])
    ∧ _buildWhere 50 [] andAttrSchema none (some "and") false (.arr []) []
      = .error .propertyNameNotDefined
    ∧ _buildWhere 50 [] plainSchema none (some "and") false (.arr []) []
      = .ok ("1<>1", []) :=
  ⟨rfl, by rfl, by rfl, by rfl, by rfl, by rfl⟩

/-- A property name that is not a comparator token is none of the handled
switch cases. -/
theorem not_reserved_of_not_comparer {p : String} (h : _isComparer p = false) :
    p ≠ "!" ∧ p ≠ "not" ∧ p ≠ "or" ∧ p ≠ "contains" ∧ p ≠ "startsWith"
      ∧ p ≠ "endsWith" ∧ p ≠ "like" := by
  refine ⟨?_, ?_, ?_, ?_, ?_, ?_, ?_⟩ <;> (intro e; subst e; simp [_isComparer] at h)

/-- Dispatching on a non-comparator property name reaches the default branch. -/
theorem dispatch_default (fuel : Nat) (msbgi : List (String × ModelSchema))
    (schema : ModelSchema) (p : String) (neg : Bool) (v : WhereValue)
    (params : List WhereValue) (h : _isComparer p = false) :
    _buildWhere (fuel+1) msbgi schema (some p) none neg v params
      = buildWhereDefault fuel msbgi schema (some p) none neg v params := by
  obtain ⟨h1, h2, h3, h4, h5, h6, h7⟩ := not_reserved_of_not_comparer h
  simp only [_buildWhere, Option.getD_some]
  rw [if_neg (by simp [h1, h2]), if_neg (by simpa using h3), if_neg (by simpa using h4),
    if_neg (by simpa using h5), if_neg (by simpa using h6), if_neg (by simpa using h7)]

/-- A nonempty property name is truthy. -/
theorem isEmpty_eq_empty {p : String} (hq : p.isEmpty = true) : p = "" := by
  unfold String.isEmpty at hq
  cases p with
  | mk d =>
    cases d with
    | nil => rfl
    | cons c cs =>
      simp only [String.endPos, String.utf8ByteSize, String.utf8ByteSize.go,
        beq_iff_eq, String.Pos.ext_iff] at hq
      have h3 : (0 : String.Pos).byteIdx = 0 := rfl
      rw [h3] at hq
      have h1 : 0 < c.utf8Size := Char.utf8Size_pos c
      omega

/-- A nonempty property name is truthy. -/
theorem truthyStr_some {p : String} (h : p ≠ "") : truthyStr (some p) = true := by
  have he : p.isEmpty = false := by
    cases hq : p.isEmpty
    · rfl
    · exact absurd (isEmpty_eq_empty hq) h
  simp [truthyStr, he]

/-- A non-relation attribute never dereferences. -/
theorem relationDereference_none_of_model_none (msbgi : List (String × ModelSchema))
    {schema : ModelSchema} {p : String} {a : Attr} (v : WhereValue)
    (hne : p ≠ "") (ha : lookupAttr schema p = some a) (hm : a.model = none) :
    relationDereference msbgi schema (some p) v = .ok none := by
  unfold relationDereference
  rw [if_pos (truthyStr_some hne)]
  simp only [Option.getD_some, ha, hm]
  simp only [Bool.and_eq_true, Bool.not_eq_true', ite_eq_right_iff, and_imp]
  intro h1 h2
  have hE : ("" : String).isEmpty = true := rfl
  rw [Option.getD_none] at h1
  rw [hE] at h1
  cases h1

/-- Claim C3: an empty array value on a property compiles, binding no
parameter, to equality (inequality when negated) against the empty-array
literal for an array-typed column, and to the 1<>1 / 1=1 tautology for a
scalar column. -/
theorem C3_empty_array (fuel : Nat) (msbgi : List (String × ModelSchema))
    (schema : ModelSchema) (p : String) (a : Attr) (neg : Bool)
    (params : List WhereValue) (colName : String)
    (hcmp : _isComparer p = false) (hne : p ≠ "")
    (ha : lookupAttr schema p = some a) (hm : a.model = none)
    (hcol : _getColumnName schema (some p) = .ok colName) :
    (isArrayColumnType (typeLowered (some a)) = true →
      _buildWhere (fuel+2) msbgi schema (some p) none neg (.arr []) params
        = .ok ("\"" ++ colName ++ "\"" ++ (if neg then "<>" else "=") ++ "\x27\x7b\x7d\x27",
            params))
    ∧ (isArrayColumnType (typeLowered (some a)) = false →
      _buildWhere (fuel+2) msbgi schema (some p) none neg (.arr []) params
        = .ok (if neg then "1=1" else "1<>1", params)) := by
  have hrd := relationDereference_none_of_model_none msbgi (WhereValue.arr [])
    hne ha hm
  have hattr : attrFromPropertyOrComparer schema (some p) none = some a := by
    unfold attrFromPropertyOrComparer
    rw [if_pos (truthyStr_some hne)]
    simp only [Option.getD_some, ha]
  constructor
  · intro hT
    rw [dispatch_default _ _ _ _ _ _ _ hcmp]
    simp only [buildWhereDefault, hrd, hattr, List.isEmpty_nil, if_true, hT, hcol]
  · intro hT
    rw [dispatch_default _ _ _ _ _ _ _ hcmp]
    simp only [buildWhereDefault, hrd, hattr, List.isEmpty_nil, if_true, hT]
    cases neg <;> simp

/-- Witness for C3: the empty array on the array-typed aliases column and on
the scalar name column of the product model. -/
theorem C3_empty_array_witness :
    _buildWhere 12 [] productSchema (some "aliases") none false (.arr []) []
      = .ok ("\"alias_names\"=\x27\x7b\x7d\x27", [])
    ∧ _buildWhere 12 [] productSchema (some "name") none true (.arr []) []
      = .ok ("1=1", []) := by
  constructor
  · have H := (C3_empty_array 10 [] productSchema "aliases"
      { emptyAttr with columnName := some "alias_names", type := some "string[]" }
      false [] "alias_names" (by rfl) (by decide) (by rfl) (by rfl) (by rfl)).1 (by rfl)
    simpa using H
  · have H := (C3_empty_array 10 [] productSchema "name"
      { emptyAttr with type := some "string", required := true }
      true [] "name" (by rfl) (by decide) (by rfl) (by rfl) (by rfl)).2 (by rfl)
    simpa using H

/-- Claim C6: a delete compiled from an empty where object (and likewise from
no where object at all) is exactly DELETE FROM "table" with no parameters and
no WHERE keyword. -/
theorem C6_delete_empty_where (fuel : Nat) (msbgi : List (String × ModelSchema))
    (schema : ModelSchema) :
    getDeleteQueryAndParams (fuel+3) msbgi schema (some (.obj [])) false none
      = .ok ("DELETE FROM \"" ++ schema.tableName ++ "\"", [])
    ∧ getDeleteQueryAndParams fuel msbgi schema none false none
      = .ok ("DELETE FROM \"" ++ schema.tableName ++ "\"", []) := by
  have hbw : _buildWhere (fuel+3) msbgi schema none (some "and") false (.obj []) []
      = .ok ("", []) := by
    simp only [_buildWhere]
    rw [if_neg (by decide), if_neg (by decide), if_neg (by decide), if_neg (by decide),
      if_neg (by decide), if_neg (by decide)]
    have hrd : relationDereference msbgi schema none (.obj []) = .ok none := rfl
    simp only [buildWhereDefault, hrd, buildWhereEntries, joinSep]
  constructor
  · simp only [getDeleteQueryAndParams, _buildWhereStatement, isObjectLodash, hbw]
    rfl
  · rfl

/-- Witness for C6: a delete over the product model with an empty where object
compiles to a bare DELETE statement. -/
theorem C6_delete_empty_where_witness :
    getDeleteQueryAndParams 13 [] productSchema (some (.obj [])) false none
      = .ok ("DELETE FROM \"products\"", []) := by
  have H := (C6_delete_empty_where 10 [] productSchema).1
  simpa using H

/-- Under a relation attribute whose registered related schema's primary key is
absent from the object value, the dereference silently yields nothing. -/
theorem relationDereference_none_of_missing_pk {msbgi : List (String × ModelSchema)}
    {schema : ModelSchema} {p : String} {a : Attr} {m : String} {rs : ModelSchema}
    (entries : List (String × WhereValue))
    (hne : p ≠ "") (ha : lookupAttr schema p = some a) (hm : a.model = some m)
    (hmne : m ≠ "") (hrs : lookupSchema msbgi (toLowerStr m) = some rs)
    (hpk : getProp (.obj entries) (getPrimaryKeyPropertyName rs) = .undef) :
    relationDereference msbgi schema (some p) (.obj entries) = .ok none := by
  unfold relationDereference
  rw [if_pos (truthyStr_some hne)]
  simp only [Option.getD_some, ha, hm]
  have hmE : m.isEmpty = false := by
    cases hq : m.isEmpty
    · rfl
    · exact absurd (isEmpty_eq_empty hq) hmne
  simp only [Option.getD_some, hmE, Bool.not_false, isObjectLodash, Bool.and_self, if_true,
    hrs, hpk]

/-- Claim C7 (amended): an undefined comparison value raises UndefinedValueError;
a null value compiles to IS [NOT] NULL binding no parameter; but a hydrated
relation object lacking its primary key does NOT raise — the dereference yields
nothing and the object's entries are compiled as a nested where clause. -/
theorem C7_undefined_value_conditions (fuel : Nat) (msbgi : List (String × ModelSchema))
    (schema : ModelSchema) (p : String) (a : Attr) (neg : Bool)
    (params : List WhereValue) (colName m : String) (rs : ModelSchema)
    (entries : List (String × WhereValue))
    (hcmp : _isComparer p = false) (hne : p ≠ "")
    (ha : lookupAttr schema p = some a) :
    (_buildWhere (fuel+2) msbgi schema (some p) none neg .undef params
        = .error (.undefinedValue p schema.globalId))
    ∧ (a.model = none → _getColumnName schema (some p) = .ok colName →
        _buildWhere (fuel+2) msbgi schema (some p) none neg .null params
          = .ok ("\"" ++ colName ++ "\" " ++ (if neg then "IS NOT" else "IS") ++ " NULL",
              params))
    ∧ (a.model = some m → m ≠ "" → lookupSchema msbgi (toLowerStr m) = some rs →
        getProp (.obj entries) (getPrimaryKeyPropertyName rs) = .undef →
        _buildWhere (fuel+2) msbgi schema (some p) none neg (.obj entries) params
          = match buildWhereEntries fuel msbgi schema (some p) neg entries params with
            | .error e => .error e
            | .ok (andValues, params2) => .ok (joinSep " AND " andValues, params2)) := by
  refine ⟨?_, ?_, ?_⟩
  · rw [dispatch_default _ _ _ _ _ _ _ hcmp]
    simp only [buildWhereDefault, Option.getD_some]
  · intro hm hcol
    rw [dispatch_default _ _ _ _ _ _ _ hcmp]
    have hrd := relationDereference_none_of_model_none msbgi WhereValue.null
      hne ha hm
    simp only [buildWhereDefault, hrd, _buildComparisonOperatorStatement, hcol]
  · intro hm hmne hrs hpk
    rw [dispatch_default _ _ _ _ _ _ _ hcmp]
    have hrd := relationDereference_none_of_missing_pk entries hne ha hm hmne hrs hpk
    simp only [buildWhereDefault, hrd]

/-- Witness for C7 (amended), exercising all three conjuncts on the product
model: an undefined name errors, a negated null name compiles to IS NOT NULL,
and a hydrated store object without its id compiles as a nested where. -/
theorem C7_undefined_value_conditions_witness :
    (_buildWhere 12 [] productSchema (some "name") none false .undef []
        = .error (.undefinedValue "name" "Product"))
    ∧ (_buildWhere 12 [] productSchema (some "name") none true .null []
        = .ok ("\"name\" IS NOT NULL", []))
    ∧ (_buildWhere 12 sampleRegistry productSchema (some "store") none false
          (.obj [("name", .str "x")]) []
        = .ok ("\"name\"=$1", [.str "x"])) := by
  refine ⟨?_, ?_, ?_⟩
  · exact (C7_undefined_value_conditions 10 [] productSchema "name"
      { emptyAttr with type := some "string", required := true } false [] "name" "" storeSchema
      [] (by rfl) (by decide) (by rfl)).1
  · have H := (C7_undefined_value_conditions 10 [] productSchema "name"
      { emptyAttr with type := some "string", required := true } true [] "name" "" storeSchema
      [] (by rfl) (by decide) (by rfl)).2.1 (by rfl) (by rfl)
    simpa using H
  · have H := (C7_undefined_value_conditions 10 sampleRegistry productSchema "store"
      { emptyAttr with columnName := some "store_id", model := some "store" } false []
      "store_id" "store" storeSchema [("name", .str "x")]
      (by rfl) (by decide) (by rfl)).2.2 (by rfl) (by decide) (by rfl) (by rfl)
    rw [H]
    rfl

/-- Counterexample to C7 as stated: a hydrated relation object whose primary
key is not populated does not raise UndefinedValueError — the full where
statement compiles successfully, treating the object as a nested where
clause. -/
theorem C7_counterexample :
    _buildWhereStatement 20 sampleRegistry productSchema
        (some (.obj [("store", .obj [("name", .str "x")])])) []
      = .ok ("WHERE \"name\"=$1", [.str "x"]) := by rfl

/-- Claim C4: an explicit select list lacking the primary-key property gets it
appended exactly once, last; an omitted select becomes the non-collection
property names; a projection piece is aliased with AS exactly when the physical
column name differs from the property name. -/
theorem C4_select_list (model : ModelSchema) (sel : List String) (pk : String × Attr)
    (hpk : primaryKeyColumn model = some pk) (hmem : pk.1 ∉ sel) (hne : sel ≠ []) :
    effectiveSelect model (some sel) = sel ++ [pk.1]
    ∧ (effectiveSelect model (some sel)).count pk.1 = 1
    ∧ (effectiveSelect model (some sel)).getLast? = some pk.1
    ∧ effectiveSelect model none
        = (model.attributes.filter (fun pa => !pa.2.collection)).map Prod.fst
    ∧ ∀ p a, lookupAttr model p = some a →
        ((a.columnName.getD p ≠ p →
            selectPiece model p
              = .ok ("\"" ++ a.columnName.getD p ++ "\" AS \"" ++ p ++ "\""))
          ∧ (selectPiece model p = .ok ("\"" ++ p ++ "\"") ↔ a.columnName.getD p = p)) := by
  have hc : sel.contains pk.1 = false := by simpa using hmem
  have heff : effectiveSelect model (some sel) = sel ++ [pk.1] := by
    simp only [effectiveSelect, hpk, hc]
    rfl
  refine ⟨heff, ?_, ?_, rfl, ?_⟩
  · rw [heff, List.count_append]
    have h0 : sel.count pk.1 = 0 := by simp [List.count_eq_zero, hmem]
    simp [h0]
  · rw [heff]
    exact List.getLast?_concat sel
  · intro p a hla
    constructor
    · intro hd
      simp only [selectPiece, hla]
      rw [if_pos hd]
    · constructor
      · intro hok
        by_contra hd
        simp only [selectPiece, hla] at hok
        rw [if_pos hd] at hok
        have hstr := Except.ok.inj hok
        have hlen := congrArg String.length hstr
        simp only [String.length_append] at hlen
        have e1 : ("\"" : String).length = 1 := rfl
        have e2 : ("\" AS \"" : String).length = 6 := rfl
        rw [e1, e2] at hlen
        omega
      · intro hd
        simp only [selectPiece, hla]
        rw [if_neg (by simp [hd])]

/-- Witness for C4: the product model with select [name, sku]; the aliases
property demonstrates the AS alias and the name property the plain piece. -/
theorem C4_select_list_witness :
    effectiveSelect productSchema (some ["name", "sku"]) = ["name", "sku"] ++ ["id"]
    ∧ (effectiveSelect productSchema (some ["name", "sku"])).count "id" = 1
    ∧ (effectiveSelect productSchema (some ["name", "sku"])).getLast? = some "id"
    ∧ effectiveSelect productSchema none
        = (productSchema.attributes.filter (fun pa => !pa.2.collection)).map Prod.fst
    ∧ selectPiece productSchema "aliases" = .ok ("\"alias_names\" AS \"aliases\"")
    ∧ selectPiece productSchema "name" = .ok ("\"name\"") := by
  have H := C4_select_list productSchema ["name", "sku"]
    ("id", { emptyAttr with primaryKey := true, type := some "integer" })
    (by rfl) (by decide) (by decide)
  refine ⟨H.1, H.2.1, H.2.2.1, H.2.2.2.1, ?_, ?_⟩
  · have ha := (H.2.2.2.2 "aliases"
      { emptyAttr with columnName := some "alias_names", type := some "string[]" } (by rfl)).1
      (by decide)
    simpa using ha
  · exact (H.2.2.2.2 "name"
      { emptyAttr with type := some "string", required := true } (by rfl)).2.mpr (by rfl)

/-- Claim C10: the column-selection builder hands the caller back its select
array grown in place by the primary-key property (one element longer), while an
omitted select leaves nothing for the caller to observe. -/
theorem C10_select_inplace_append (model : ModelSchema) (sel : List String)
    (pk : String × Attr) (s : String) (selAfter : Option (List String))
    (hpk : primaryKeyColumn model = some pk) (hmem : pk.1 ∉ sel)
    (h : _getColumnsToSelect model (some sel) = .ok (s, selAfter)) :
    selAfter = some (sel ++ [pk.1])
    ∧ selAfter.map List.length = some (sel.length + 1)
    ∧ (∀ s2 sa2, _getColumnsToSelect model none = .ok (s2, sa2) → sa2 = none) := by
  have hc : sel.contains pk.1 = false := by simpa using hmem
  have heff : effectiveSelect model (some sel) = sel ++ [pk.1] := by
    simp only [effectiveSelect, hpk, hc]
    rfl
  simp only [_getColumnsToSelect, heff] at h
  have hsel : selAfter = some (sel ++ [pk.1]) := by
    cases hp : selectPieces model (sel ++ [pk.1]) with
    | error e =>
      rw [hp] at h
      cases h
    | ok pieces =>
      rw [hp] at h
      cases h
      rfl
  refine ⟨hsel, ?_, ?_⟩
  · rw [hsel]
    simp
  · intro s2 sa2 h2
    simp only [_getColumnsToSelect] at h2
    cases hp : selectPieces model (effectiveSelect model none) with
    | error e =>
      rw [hp] at h2
      cases h2
    | ok pieces =>
      rw [hp] at h2
      cases h2
      rfl

/-- Witness for C10: a select of [name] on the product model comes back as
[name, id]. -/
theorem C10_select_inplace_append_witness :
    (some ["name", "id"] : Option (List String)) = some (["name"] ++ ["id"])
    ∧ (some ["name", "id"] : Option (List String)).map List.length
        = some (["name"].length + 1)
    ∧ (none : Option (List String)) = none := by
  have H := C10_select_inplace_append productSchema ["name"]
    ("id", { emptyAttr with primaryKey := true, type := some "integer" })
    "\"name\",\"id\"" (some ["name", "id"]) (by rfl) (by decide) (by rfl)
  exact ⟨H.1, H.2.1, H.2.2 "\"id\",\"name\",\"sku\",\"alias_names\" AS \"aliases\",\"store_id\" AS \"store\"" none (by rfl)⟩


/-- Setting one property leaves the others readable unchanged. -/
theorem getEntityProp_setEntityProp_ne (e : EntityRec) (q p : String) (v : WhereValue)
    (hqp : q ≠ p) : getEntityProp (setEntityProp e q v) p = getEntityProp e p := by
  induction e with
  | nil =>
    simp [setEntityProp, getEntityProp, List.find?, hqp]
  | cons kv rest ih =>
    obtain ⟨k, w⟩ := kv
    simp only [setEntityProp]
    by_cases hk : k = q
    · rw [if_pos hk]
      subst hk
      simp [getEntityProp, List.find?, hqp]
    · rw [if_neg hk]
      by_cases hp : k = p
      · subst hp
        simp [getEntityProp, List.find?]
      · simp only [getEntityProp, List.find?] at ih ⊢
        have hd : (decide (k = p)) = false := by simp [hp]
        rw [hd]
        simpa [getEntityProp] using ih

/-- The default/required loop can only fail with MissingRequiredFieldError for
its own model and property. -/
theorem applyColumnDefaults_error_shape (mn p : String) (req : Bool) (dv : WhereValue) :
    ∀ (entities : List EntityRec) (err : SqlError),
      applyColumnDefaults mn p req dv entities = .error err →
      err = .missingRequiredField mn p := by
  intro entities
  induction entities with
  | nil =>
    intro err h
    cases h
  | cons e rest ih =>
    intro err h
    simp only [applyColumnDefaults] at h
    repeat' split at h
    all_goals first
      | (cases h; rfl)
      | (cases h; exact ih _ (by assumption))
      | cases h

/-- A required column with no usable default fails on the first entity that
still lacks a value. -/
theorem applyColumnDefaults_required_error (mn p : String) (dv : WhereValue)
    (hdv : isUndef dv = true) :
    ∀ (entities : List EntityRec),
      (∃ e ∈ entities, isUndef (getEntityProp e p) = true) →
      applyColumnDefaults mn p true dv entities = .error (.missingRequiredField mn p) := by
  intro entities
  induction entities with
  | nil =>
    rintro ⟨e, he, _⟩
    cases he
  | cons e rest ih =>
    rintro ⟨w, hw, hwu⟩
    simp only [applyColumnDefaults, hdv, Bool.not_true, Bool.false_and, Bool.false_eq_true,
      if_false]
    by_cases hu : isUndef (getEntityProp e p) = true
    · rw [if_pos hu]
      simp
    · rw [if_neg hu]
      rcases List.mem_cons.mp hw with hwe | hwr
      · subst hwe
        exact absurd hwu hu
      · rw [ih ⟨w, hwr, hwu⟩]

/-- Applying defaults for one property never fills in a different property: an
entity undefined at p is still represented undefined at p afterwards. -/
theorem applyColumnDefaults_preserves (mn q p : String) (req : Bool) (dv : WhereValue)
    (hqp : q ≠ p) :
    ∀ (entities entitiesF : List EntityRec) (incl : Bool),
      applyColumnDefaults mn q req dv entities = .ok (entitiesF, incl) →
      (∃ e ∈ entities, isUndef (getEntityProp e p) = true) →
      ∃ e2 ∈ entitiesF, isUndef (getEntityProp e2 p) = true := by
  intro entities
  induction entities with
  | nil =>
    rintro es incl h ⟨e, he, _⟩
    cases he
  | cons e rest ih =>
    rintro es incl h ⟨w, hw, hwu⟩
    simp only [applyColumnDefaults] at h
    repeat' split at h
    all_goals cases h
    all_goals rcases List.mem_cons.mp hw with hwe | hwr
    all_goals first
      | (subst hwe
         exact ⟨_, List.mem_cons_self _ _,
           by rw [getEntityProp_setEntityProp_ne _ q p dv hqp]; exact hwu⟩)
      | (subst hwe
         exact ⟨_, List.mem_cons_self _ _, hwu⟩)
      | (obtain ⟨e2, he2, hu2⟩ := ih _ _ (by assumption) ⟨w, hwr, hwu⟩
         exact ⟨e2, List.mem_cons_of_mem _ he2, hu2⟩)

/-- The pre-query defaults/validation phase fails with a
MissingRequiredFieldError whenever a required non-collection column with no
usable default is undefined on some entity. -/
theorem insertDefaultsPhase_required_error (now : Int) (mn : String) :
    ∀ (attrs : List (String × Attr)) (entities : List EntityRec)
      (p : String) (a : Attr),
      (attrs.map Prod.fst).Nodup → (p, a) ∈ attrs →
      a.collection = false → a.required = true →
      isUndef (defaultValueFor now a) = true →
      (∃ e ∈ entities, isUndef (getEntityProp e p) = true) →
      ∃ f, insertDefaultsPhase now mn attrs entities
        = .error (.missingRequiredField mn f) := by
  intro attrs
  induction attrs with
  | nil =>
    intro entities p a _ hmem
    cases hmem
  | cons qa rest ih =>
    intro entities p a hnd hmem hcoll hreq hdv hwit
    obtain ⟨q, c⟩ := qa
    rcases List.mem_cons.mp hmem with hhead | htail
    · injection hhead with hq hc
      subst hq
      subst hc
      refine ⟨p, ?_⟩
      simp only [insertDefaultsPhase, hcoll, Bool.false_eq_true, if_false]
      rw [hreq, applyColumnDefaults_required_error mn p _ hdv entities hwit]
    · have hqp : q ≠ p := by
        intro hq
        subst hq
        have hnotin := (List.nodup_cons.mp hnd).1
        exact hnotin (List.mem_map.mpr ⟨(q, a), htail, rfl⟩)
      have hnd2 : (rest.map Prod.fst).Nodup := (List.nodup_cons.mp hnd).2
      by_cases hc : c.collection = true
      · simp only [insertDefaultsPhase, hc, if_true]
        exact ih entities p a hnd2 htail hcoll hreq hdv hwit
      · simp only [insertDefaultsPhase, Bool.not_eq_true] at hc ⊢
        simp only [hc, Bool.false_eq_true, if_false]
        cases hac : applyColumnDefaults mn q c.required (defaultValueFor now c) entities with
        | error err =>
          refine ⟨q, ?_⟩
          have herr := applyColumnDefaults_error_shape mn q _ _ entities err hac
          subst herr
          rfl
        | ok pr =>
          obtain ⟨entities2, incl⟩ := pr
          obtain ⟨f, hf⟩ := ih entities2 p a hnd2 htail hcoll hreq hdv
            (applyColumnDefaults_preserves mn q p c.required _ hqp entities entities2 incl
              hac hwit)
          refine ⟨f, ?_⟩
          simp only [hf]

/-- Claim C5: an insert with a required non-collection column that some row
leaves undefined even after applying defaults fails with
MissingRequiredFieldError; the error arises in the defaults/validation phase,
which runs before any query text is assembled, so no statement is returned. -/
theorem C5_missing_required_field (fuel : Nat) (now : Int)
    (msbgi : List (String × ModelSchema)) (model : ModelSchema)
    (values : List EntityRec) (returnRecords : Bool) (returnSelect : Option (List String))
    (p : String) (a : Attr) (e : EntityRec)
    (hnd : (model.attributes.map Prod.fst).Nodup)
    (hmem : (p, a) ∈ model.attributes)
    (hcoll : a.collection = false) (hreq : a.required = true)
    (hdv : isUndef (defaultValueFor now a) = true)
    (he : e ∈ values) (heu : isUndef (getEntityProp e p) = true) :
    ∃ f, getInsertQueryAndParams fuel now msbgi model values returnRecords returnSelect
      = .error (.missingRequiredField model.globalId f) := by
  obtain ⟨f, hf⟩ := insertDefaultsPhase_required_error now model.globalId model.attributes
    values p a hnd hmem hcoll hreq hdv ⟨e, he, heu⟩
  refine ⟨f, ?_⟩
  simp only [getInsertQueryAndParams, hf]

/-- Witness for C5: creating a product from just a sku fails because the
required name column has no value and no default. -/
theorem C5_missing_required_field_witness :
    ∃ f, getInsertQueryAndParams 5 0 [] productSchema [[("sku", .str "s")]] false none
      = .error (.missingRequiredField "Product" f) :=
  C5_missing_required_field 5 0 [] productSchema [[("sku", .str "s")]] false none
    "name" { emptyAttr with type := some "string", required := true } [("sku", .str "s")]
    (by decide) (by unfold productSchema; exact List.mem_cons_of_mem _ (List.mem_cons_self _ _))
    (by rfl) (by rfl) (by rfl) (List.mem_cons_self _ _) (by rfl)
